import Mathlib

/-!
Verification of the antenna-insertion tool (`IFC_insert_antenna.py`).

The development has two parts:
* a real-number embedding of the geometry pipeline (vector math, axis
  extraction, profile radii, the leg-placement solver, and the exit-code
  skeleton of `main`), and
* an executable entity-graph embedding of the model-manipulation pipeline
  (inverse-relation copying, container attachment, GUID refresh, and
  owner-history harmonization), together with a migrator modelled from the
  spec (the migrator itself lives in the external `ifcopenshell` library).

Python floats are modelled as real numbers; the numeric guards of the code
(`EPS = 1e-9`) are kept verbatim.
-/

namespace IFCAntenna

/-- `EPS = 1e-9`, the degeneracy threshold of the source. -/
noncomputable def EPS : ℝ := 1 / 1000000000

/-- A 3-D vector (embedding of a length-3 numpy float array). -/
structure Vec3 where
  x : ℝ
  y : ℝ
  z : ℝ

namespace Vec3

noncomputable def add (a b : Vec3) : Vec3 := ⟨a.x + b.x, a.y + b.y, a.z + b.z⟩

noncomputable def sub (a b : Vec3) : Vec3 := ⟨a.x - b.x, a.y - b.y, a.z - b.z⟩

noncomputable def smul (r : ℝ) (a : Vec3) : Vec3 := ⟨r * a.x, r * a.y, r * a.z⟩

/-- `np.cross` for 3-vectors. -/
noncomputable def cross (a b : Vec3) : Vec3 :=
  ⟨a.y * b.z - a.z * b.y, a.z * b.x - a.x * b.z, a.x * b.y - a.y * b.x⟩

/-- `np.linalg.norm` for 3-vectors. -/
noncomputable def norm (a : Vec3) : ℝ :=
  Real.sqrt (a.x ^ 2 + a.y ^ 2 + a.z ^ 2)

/-- `np.linalg.norm(point[:2])`: the planar norm used for profile radii. -/
noncomputable def norm2d (a : Vec3) : ℝ :=
  Real.sqrt (a.x ^ 2 + a.y ^ 2)

/-- The exact value of `v / norm(v)` (used on the non-degenerate path). -/
noncomputable def unit (a : Vec3) : Vec3 :=
  ⟨a.x / a.norm, a.y / a.norm, a.z / a.norm⟩

theorem ext_iff (a b : Vec3) : a = b ↔ a.x = b.x ∧ a.y = b.y ∧ a.z = b.z := by
  constructor
  · intro h; subst h; exact ⟨rfl, rfl, rfl⟩
  · rintro ⟨h1, h2, h3⟩; cases a; cases b; simp_all

end Vec3

/-- `global_up = np.array([0,0,1])`. -/
noncomputable def globalUp : Vec3 := ⟨0, 0, 1⟩

/-- `np.array([1,0,0])`, the fallback reference axis. -/
noncomputable def worldX : Vec3 := ⟨1, 0, 0⟩

/-- Errors the geometry pipeline can signal (all are `ValueError` in the
source; constructors record which `raise` site produced them). -/
inductive GeomError where
  /-- `normalize`: vector of (near-)zero length. -/
  | degenerateVector
  /-- `compute_leg_placement`: no `IfcColumn` crosses the height. -/
  | noCandidate
  /-- `compute_leg_placement`: `--leg-index` outside the candidate range. -/
  | invalidIndex
  deriving Repr, DecidableEq

/-- `normalize`: fails when the norm is below `EPS`, otherwise divides. -/
noncomputable def normalize (v : Vec3) : Except GeomError Vec3 :=
  if v.norm < EPS then .error .degenerateVector else .ok v.unit

/-- Errors of `get_column_axis_points` (both are `ValueError` in the source;
the claim groups them as `NoAxisFoundError`). -/
inductive AxisError where
  /-- the column has no assigned type (`not column.IsTypedBy`). -/
  | noType
  /-- no axis representation with a usable curve was found. -/
  | noAxis
  deriving Repr, DecidableEq

/-- A coordinate tuple of an IFC point: 2-D or 3-D. -/
inductive Coord where
  | two (x y : ℝ)
  | three (x y z : ℝ)

/-- 2-D points are normalized to 3-D by appending `z = 0` (the
`if len(values) == 2: values.append(0.0)` lines of the source). -/
noncomputable def Coord.toPoint : Coord → Vec3
  | .two x y => ⟨x, y, 0⟩
  | .three x y z => ⟨x, y, z⟩

mutual

/-- A representation item, dispatched on by `is_a` checks in the source:
an indexed poly-curve, an explicit polyline, an extruded-area solid, or
anything else. -/
inductive Item where
  | indexedPolyCurve (coordList : List Coord)
  | polyline (points : List Coord)
  | extrudedAreaSolid (sweptArea : Profile)
  | otherItem

/-- A swept-area profile: an optional outer boundary curve (absent models
both a missing `OuterCurve` attribute and a null one) and the possibly
empty inner-boundary list (`getattr(profile, "InnerCurves", None) or []`). -/
inductive Profile where
  | mk (outerCurve : Option Item) (innerCurves : List Item)

end

def Profile.outerCurve : Profile → Option Item
  | .mk o _ => o

def Profile.innerCurves : Profile → List Item
  | .mk _ i => i

/-- `read_polycurve_points`: point list of an indexed poly-curve or a
polyline, empty for every other item class. -/
noncomputable def read_polycurve_points : Item → List Vec3
  | .indexedPolyCurve coordList => coordList.map Coord.toPoint
  | .polyline points => points.map Coord.toPoint
  | _ => []

/-- `MappedRepresentation`: identifier plus item list. -/
structure Representation where
  representationIdentifier : Option String
  items : List Item

/-- An `IfcRepresentationMap` of the column type. -/
structure RepresentationMap where
  mappedRepresentation : Representation

/-- The relevant attributes of an `IfcColumnType`
(`RepresentationMaps or []` is modelled by an optional list). -/
structure ColumnType where
  representationMaps : Option (List RepresentationMap)

/-- One `IfcRelDefinesByType` entry of `column.IsTypedBy`. -/
structure TypeRel where
  relatingType : ColumnType

/-- The attributes of an `IfcColumn` that the placement pipeline reads.
`containedInStructure` holds the `RelatingStructure` handles of the
column's `ContainedInStructure` inverse relations (only emptiness and the
first element are read, in `main`). -/
structure Column where
  isTypedBy : List TypeRel
  containedInStructure : List Nat

/-- The representation-map scan of `get_column_axis_points`: skip maps whose
identifier is not `"Axis"`, skip empty item lists, read the first item's
points, skip when fewer than 2 points, else return (first, last). -/
noncomputable def axisFromMaps : List RepresentationMap → Except AxisError (Vec3 × Vec3)
  | [] => .error .noAxis
  | rm :: rest =>
    if rm.mappedRepresentation.representationIdentifier ≠ some "Axis" then
      axisFromMaps rest
    else
      match rm.mappedRepresentation.items with
      | [] => axisFromMaps rest
      | item :: _ =>
        match read_polycurve_points item with
        | [] => axisFromMaps rest
        | [_] => axisFromMaps rest
        | p :: q :: tl => .ok (p, List.getLast (q :: tl) (by simp))

/-- `get_column_axis_points`. -/
noncomputable def get_column_axis_points (column : Column) : Except AxisError (Vec3 × Vec3) :=
  match column.isTypedBy with
  | [] => .error .noType
  | tr :: _ => axisFromMaps (tr.relatingType.representationMaps.getD [])

/-- The inner item scan of `get_column_profile_info`: the first
extruded-area solid of an item list. -/
def firstSolid : List Item → Option Profile
  | [] => none
  | .extrudedAreaSolid p :: _ => some p
  | _ :: rest => firstSolid rest

/-- The map scan of `get_column_profile_info`: first `"Body"` representation
containing an extruded-area solid (a `"Body"` map without a solid lets the
outer loop continue). -/
def findBodySolid : List RepresentationMap → Option Profile
  | [] => none
  | rm :: rest =>
    if rm.mappedRepresentation.representationIdentifier ≠ some "Body" then
      findBodySolid rest
    else
      match firstSolid rm.mappedRepresentation.items with
      | some p => some p
      | none => findBodySolid rest

/-- `max(...)` over planar norms of a point list; the source applies it only
to non-empty lists of non-negative values, for which folding from `0`
coincides with Python's `max`. -/
noncomputable def maxNorm2d (pts : List Vec3) : ℝ :=
  (pts.map Vec3.norm2d).foldl max 0

/-- The outer-radius computation: `0.0` unless the profile has a non-null
outer curve with at least one point. -/
noncomputable def outerRadiusOf (profile : Profile) : ℝ :=
  match profile.outerCurve with
  | none => 0
  | some c =>
    match read_polycurve_points c with
    | [] => 0
    | pts => maxNorm2d pts

/-- The inner-radius computation: `0.0` unless the profile has at least one
inner curve whose first curve yields at least one point. -/
noncomputable def innerRadiusOf (profile : Profile) : ℝ :=
  match profile.innerCurves with
  | [] => 0
  | c :: _ =>
    match read_polycurve_points c with
    | [] => 0
    | pts => maxNorm2d pts

/-- `get_column_profile_info`: `(outer_radius, inner_radius)`, both `0.0`
when the column has no type or no body solid (soft failure). -/
noncomputable def get_column_profile_info (column : Column) : ℝ × ℝ :=
  match column.isTypedBy with
  | [] => (0, 0)
  | tr :: _ =>
    match findBodySolid (tr.relatingType.representationMaps.getD []) with
    | none => (0, 0)
    | some profile => (outerRadiusOf profile, innerRadiusOf profile)

/-- The record built per candidate by `compute_leg_placement`. -/
structure LegPlacement where
  leg : Column
  axis_start : Vec3
  axis_end : Vec3
  center_at_height : Vec3
  insertion_point : Vec3
  direction : Vec3
  radial_offset : ℝ

/-- The loop body of `compute_leg_placement` for one column: `.ok none`
models `continue`, `.ok (some _)` a collected candidate, and `.error` an
uncaught `ValueError` escaping from `normalize` (the `try` block only
covers the axis extraction). -/
noncomputable def processColumn (target_height : ℝ) (column : Column) :
    Except GeomError (Option LegPlacement) :=
  match get_column_axis_points column with
  | .error _ => .ok none
  | .ok (axis_start, axis_end) =>
    let delta := axis_end.sub axis_start
    if |delta.z| < EPS then .ok none
    else
      let t := (target_height - axis_start.z) / delta.z
      if t < 0 ∨ 1 < t then .ok none
      else do
        let direction ← normalize delta
        let center := axis_start.add (Vec3.smul t delta)
        let radial0 := Vec3.cross globalUp direction
        let radial1 := if radial0.norm < EPS then Vec3.cross worldX direction else radial0
        let radial_dir ← normalize radial1
        let ri := get_column_profile_info column
        let radial_offset :=
          if 0 < ri.1 ∧ 0 < ri.2 ∧ ri.2 < ri.1 then (ri.1 + ri.2) * (1 / 2)
          else if 0 < ri.1 then ri.1 * (1 / 2)
          else 0
        let insertion := center.add (Vec3.smul radial_offset radial_dir)
        .ok (some ⟨column, axis_start, axis_end, center, insertion, direction, radial_offset⟩)

/-- The candidate-collection loop, in model iteration order; an uncaught
`ValueError` aborts the whole loop, as in Python. -/
noncomputable def collectCandidates (target_height : ℝ) :
    List Column → Except GeomError (List LegPlacement)
  | [] => .ok []
  | c :: rest => do
    let r ← processColumn target_height c
    let others ← collectCandidates target_height rest
    match r with
    | none => .ok others
    | some p => .ok (p :: others)

/-- `compute_leg_placement`: collect candidates, fail on an empty list, then
on an out-of-range index (`leg_index < 0 or leg_index >= len(candidates)`),
else select. -/
noncomputable def compute_leg_placement (columns : List Column)
    (target_height : ℝ) (leg_index : ℤ) : Except GeomError LegPlacement := do
  let candidates ← collectCandidates target_height columns
  if candidates.isEmpty then .error .noCandidate
  else if h : 0 ≤ leg_index ∧ leg_index.toNat < candidates.length then
    .ok (candidates.get ⟨leg_index.toNat, h.2⟩)
  else .error .invalidIndex

/-! ### The exit-code skeleton of `main` -/

/-- The environment `main` runs in.  `tail_ok` abstracts the outcome of the
pipeline after the containment check (donor lookup, placement construction,
migration, rewiring, harmonization, file write): `true` when none of those
steps raises.  `unit_scale` is the result of the external
`calculate_unit_scale` call. -/
structure MainEnv where
  segment_exists : Bool
  antenna_exists : Bool
  height_m : ℝ
  unit_scale : ℝ
  leg_index : ℤ
  segment_columns : List Column
  tail_ok : Bool

/-- Outcome of running the tool: `main` returned a code (delivered through
`sys.exit(main())`), or an exception escaped `main` uncaught. -/
inductive ProcResult where
  | exit (code : ℕ)
  | uncaught
  deriving Repr, DecidableEq

/-- The control flow of `main` relevant to process termination: the three
`return 2` precondition checks, the placement solve (whose `ValueError`s
are not caught by `main`), the containment check (`return 2`), and the
abstracted tail. -/
noncomputable def mainResult (env : MainEnv) : ProcResult :=
  if env.segment_exists = false then .exit 2
  else if env.antenna_exists = false then .exit 2
  else if env.height_m ≤ 0 then .exit 2
  else
    match compute_leg_placement env.segment_columns (env.height_m / env.unit_scale)
        env.leg_index with
    | .error _ => .uncaught
    | .ok lp =>
      if lp.leg.containedInStructure.isEmpty then .exit 2
      else if env.tail_ok then .exit 0 else .uncaught

/-- The process exit code: the value returned through `sys.exit`, or `1`
when an exception escapes `main` (CPython terminates with status 1 after
printing the traceback). -/
def processExitCode : ProcResult → ℕ
  | .exit c => c
  | .uncaught => 1

/-! ### Spec-side formulations (for the refinement claims C1 and C8) -/

/-- Body of the spec-side candidate, for given axis endpoints. -/
noncomputable def claimCandidateCore (target_height : ℝ) (column : Column)
    (axis_start axis_end : Vec3) : Option LegPlacement :=
    let delta := axis_end.sub axis_start
    if |delta.z| < EPS then none
    else
      let t := (target_height - axis_start.z) / delta.z
      if t < 0 ∨ 1 < t then none
      else
        let direction := delta.unit
        let center := axis_start.add (Vec3.smul t delta)
        let radial0 := Vec3.cross globalUp direction
        let radial1 := if radial0.norm < EPS then Vec3.cross worldX direction else radial0
        let radial_dir := radial1.unit
        let ri := get_column_profile_info column
        let radial_offset :=
          if 0 < ri.1 ∧ 0 < ri.2 ∧ ri.2 < ri.1 then (ri.1 + ri.2) * (1 / 2)
          else if 0 < ri.1 then ri.1 * (1 / 2)
          else 0
        let insertion := center.add (Vec3.smul radial_offset radial_dir)
        some ⟨column, axis_start, axis_end, center, insertion, direction, radial_offset⟩

/-- Spec-side candidate of the placement solver, following the claim's
wording: skip on failed axis extraction, near-horizontal axis, or
`t ∉ [0,1]`; otherwise build direction, center, radial direction (with the
`worldX` fallback), radial offset and insertion point. -/
noncomputable def claimCandidate (target_height : ℝ) (column : Column) :
    Option LegPlacement :=
  match get_column_axis_points column with
  | .error _ => none
  | .ok (axis_start, axis_end) =>
    claimCandidateCore target_height column axis_start axis_end

/-- Spec-side selection: error on an empty candidate list, error on an index
outside `[0, count)`, else the indexed candidate. -/
noncomputable def claimSelect (candidates : List LegPlacement) (leg_index : ℤ) :
    Except GeomError LegPlacement :=
  if candidates.isEmpty then .error .noCandidate
  else if h : 0 ≤ leg_index ∧ leg_index.toNat < candidates.length then
    .ok (candidates.get ⟨leg_index.toNat, h.2⟩)
  else .error .invalidIndex

/-- Spec-side qualification of one representation map for the axis search:
identifier `"Axis"`, a first item whose point list has at least 2 points;
yields (first point, last point). -/
noncomputable def axisCandidate (rm : RepresentationMap) : Option (Vec3 × Vec3) :=
  if rm.mappedRepresentation.representationIdentifier = some "Axis" then
    match rm.mappedRepresentation.items with
    | [] => none
    | item :: _ =>
      match read_polycurve_points item with
      | [] => none
      | [_] => none
      | p :: q :: tl => some (p, List.getLast (q :: tl) (by simp))
  else none

/-! ### Geometry lemmas -/

theorem EPS_pos : (0 : ℝ) < EPS := by norm_num [EPS]

theorem Vec3.norm_nonneg (v : Vec3) : 0 ≤ v.norm := Real.sqrt_nonneg _

theorem Vec3.norm_sq (v : Vec3) : v.norm ^ 2 = v.x ^ 2 + v.y ^ 2 + v.z ^ 2 :=
  Real.sq_sqrt (by positivity)

theorem Vec3.abs_z_le_norm (v : Vec3) : |v.z| ≤ v.norm := by
  rw [← Real.sqrt_sq_eq_abs]
  exact Real.sqrt_le_sqrt (by nlinarith [sq_nonneg v.x, sq_nonneg v.y])

theorem Vec3.unit_norm (v : Vec3) (h : v.norm ≠ 0) : v.unit.norm = 1 := by
  have h2 := Vec3.norm_sq v
  have key : (v.x / v.norm) ^ 2 + (v.y / v.norm) ^ 2 + (v.z / v.norm) ^ 2 = 1 := by
    field_simp
    linarith
  calc v.unit.norm
      = Real.sqrt ((v.x / v.norm) ^ 2 + (v.y / v.norm) ^ 2 + (v.z / v.norm) ^ 2) := rfl
    _ = Real.sqrt 1 := by rw [key]
    _ = 1 := Real.sqrt_one

theorem normalize_ok {v : Vec3} (h : EPS ≤ v.norm) : normalize v = .ok v.unit := by
  unfold normalize
  rw [if_neg (not_lt.2 h)]

/-- The fallback radial direction is non-degenerate: on a unit vector `d`,
if `cross(globalUp, d)` has norm below `EPS` then `cross(worldX, d)` has
norm at least `EPS`. -/
theorem fallback_norm_ge (d : Vec3) (hd : d.norm = 1)
    (hsmall : (Vec3.cross globalUp d).norm < EPS) :
    EPS ≤ (Vec3.cross worldX d).norm := by
  have hc1 : Vec3.cross globalUp d = ⟨-d.y, d.x, 0⟩ := by
    rw [Vec3.ext_iff]
    refine ⟨?_, ?_, ?_⟩ <;> simp [Vec3.cross, globalUp]
  have hc2 : Vec3.cross worldX d = ⟨0, -d.z, d.y⟩ := by
    rw [Vec3.ext_iff]
    refine ⟨?_, ?_, ?_⟩ <;> simp [Vec3.cross, worldX]
  rw [hc1] at hsmall
  rw [hc2]
  have hxy : (-d.y) ^ 2 + d.x ^ 2 + (0 : ℝ) ^ 2 < EPS ^ 2 := by
    have := (Real.sqrt_lt' EPS_pos).1 hsmall
    exact this
  have hone : d.x ^ 2 + d.y ^ 2 + d.z ^ 2 = 1 := by
    have := Vec3.norm_sq d
    rw [hd] at this
    linarith [this]
  have heps : EPS ^ 2 ≤ 1 / 2 := by norm_num [EPS]
  have hz : EPS ^ 2 ≤ (0 : ℝ) ^ 2 + (-d.z) ^ 2 + d.y ^ 2 := by nlinarith
  calc EPS = Real.sqrt (EPS ^ 2) := (Real.sqrt_sq EPS_pos.le).symm
    _ ≤ (⟨0, -d.z, d.y⟩ : Vec3).norm := Real.sqrt_le_sqrt hz

/-- On the path that reaches step 3 of the solver (`|Δz| ≥ EPS`), the axis
vector has norm at least `EPS`, so the first `normalize` call succeeds. -/
theorem delta_norm_ge {delta : Vec3} (h : ¬ |delta.z| < EPS) : EPS ≤ delta.norm :=
  le_trans (not_lt.1 h) (Vec3.abs_z_le_norm delta)

/-- The radial vector chosen by the solver (primary cross product, or the
`worldX` fallback when the primary is near-zero) has norm at least `EPS`. -/
theorem radial_norm_ge {delta : Vec3} (h : ¬ |delta.z| < EPS) :
    EPS ≤ (if (Vec3.cross globalUp delta.unit).norm < EPS
           then Vec3.cross worldX delta.unit
           else Vec3.cross globalUp delta.unit).norm := by
  have hne : delta.norm ≠ 0 := (lt_of_lt_of_le EPS_pos (delta_norm_ge h)).ne'
  by_cases hsmall : (Vec3.cross globalUp delta.unit).norm < EPS
  · rw [if_pos hsmall]
    exact fallback_norm_ge delta.unit (Vec3.unit_norm delta hne) hsmall
  · rw [if_neg hsmall]
    exact not_lt.1 hsmall

/-- The loop body never raises: it is total, and agrees with the spec-side
candidate of the claim. -/
theorem processColumn_eq (h : ℝ) (c : Column) :
    processColumn h c = .ok (claimCandidate h c) := by
  unfold processColumn claimCandidate claimCandidateCore
  cases hax : get_column_axis_points c with
  | error e => rfl
  | ok pq =>
    obtain ⟨p0, p1⟩ := pq
    simp only
    by_cases h1 : |(p1.sub p0).z| < EPS
    · rw [if_pos h1, if_pos h1]
    · rw [if_neg h1, if_neg h1]
      by_cases h2 : (h - p0.z) / (p1.sub p0).z < 0 ∨ 1 < (h - p0.z) / (p1.sub p0).z
      · rw [if_pos h2, if_pos h2]
      · rw [if_neg h2, if_neg h2]
        have hn1 : normalize (p1.sub p0) = .ok (p1.sub p0).unit :=
          normalize_ok (delta_norm_ge h1)
        have hn2 := @radial_norm_ge (p1.sub p0) h1
        rw [hn1]
        show Except.bind _ _ = _
        rw [Except.bind]
        rw [normalize_ok hn2]
        show Except.bind _ _ = _
        rw [Except.bind]

/-- The collection loop equals `filterMap` over the spec-side candidate. -/
theorem collectCandidates_eq (h : ℝ) (cs : List Column) :
    collectCandidates h cs = .ok (cs.filterMap (claimCandidate h)) := by
  induction cs with
  | nil => rfl
  | cons c rest ih =>
    unfold collectCandidates
    rw [processColumn_eq]
    show Except.bind _ _ = _
    rw [Except.bind]
    rw [ih]
    show Except.bind _ _ = _
    rw [Except.bind]
    simp only [List.filterMap_cons]
    cases claimCandidate h c <;> rfl

/-- The placement solver refines the claim: collect in model order,
`NoCandidateError` on an empty list, `InvalidIndexError` outside
`[0, count)`, else the indexed candidate. -/
theorem compute_leg_placement_spec (columns : List Column) (target_height : ℝ)
    (leg_index : ℤ) :
    compute_leg_placement columns target_height leg_index
      = claimSelect (columns.filterMap (claimCandidate target_height)) leg_index := by
  unfold compute_leg_placement claimSelect
  rw [collectCandidates_eq]
  show Except.bind _ _ = _
  rw [Except.bind]

/-! ### The spec scenario: axis (0,0,0)–(0,0,6), target 3.0, outer radius 0.2 -/

/-- Axis curve of the scenario member: an indexed poly-curve from (0,0,0)
to (0,0,6). -/
noncomputable def scenarioAxisItem : Item :=
  .indexedPolyCurve [.three 0 0 0, .three 0 0 6]

/-- Body solid of the scenario member: a profile whose outer boundary has a
point at planar distance 0.2 and no inner boundary. -/
noncomputable def scenarioBodyItem : Item :=
  .extrudedAreaSolid (.mk (some (.polyline [.two (1 / 5) 0])) [])

/-- The scenario column: one type with an Axis map and a Body map, assigned
to a spatial container. -/
noncomputable def scenarioColumn : Column :=
  { isTypedBy := [⟨⟨some [⟨⟨some "Axis", [scenarioAxisItem]⟩⟩,
                          ⟨⟨some "Body", [scenarioBodyItem]⟩⟩]⟩⟩],
    containedInStructure := [5] }

/-- The candidate the code computes for the scenario: t = 1/2,
center (0,0,3), direction (0,0,1), offset 1/10, and insertion point
(0, -1/10, 3) — the fallback radial direction is `cross(worldX, (0,0,1))
= (0,-1,0)`, not `(1,0,0)`. -/
noncomputable def scenarioPlacement : LegPlacement :=
  ⟨scenarioColumn, ⟨0, 0, 0⟩, ⟨0, 0, 6⟩, ⟨0, 0, 3⟩, ⟨0, -(1 / 10), 3⟩,
   ⟨0, 0, 1⟩, 1 / 10⟩

theorem scenario_axis :
    get_column_axis_points scenarioColumn = .ok (⟨0, 0, 0⟩, ⟨0, 0, 6⟩) := by
  unfold get_column_axis_points scenarioColumn
  simp [axisFromMaps, read_polycurve_points, scenarioAxisItem, Coord.toPoint]

theorem scenario_profile : get_column_profile_info scenarioColumn = (1 / 5, 0) := by
  unfold get_column_profile_info scenarioColumn
  have h5 : Real.sqrt ((1 / 5 : ℝ) ^ 2 + 0 ^ 2) = 1 / 5 := by
    rw [show ((1 / 5 : ℝ) ^ 2 + 0 ^ 2) = (1 / 5 : ℝ) ^ 2 by norm_num]
    exact Real.sqrt_sq (by norm_num)
  simp [findBodySolid, firstSolid, scenarioBodyItem, outerRadiusOf, innerRadiusOf,
    read_polycurve_points, Coord.toPoint, maxNorm2d, Vec3.norm2d,
    Profile.outerCurve, Profile.innerCurves, h5]

theorem norm_006 : (⟨0, 0, 6⟩ : Vec3).norm = 6 := by
  show Real.sqrt ((0 : ℝ) ^ 2 + 0 ^ 2 + 6 ^ 2) = 6
  rw [show ((0 : ℝ) ^ 2 + 0 ^ 2 + 6 ^ 2) = (6 : ℝ) ^ 2 by norm_num]
  exact Real.sqrt_sq (by norm_num)

theorem unit_006 : (⟨0, 0, 6⟩ : Vec3).unit = ⟨0, 0, 1⟩ := by
  simp [Vec3.unit, norm_006]

theorem norm_0m10 : (⟨0, -1, 0⟩ : Vec3).norm = 1 := by
  show Real.sqrt ((0 : ℝ) ^ 2 + (-1) ^ 2 + 0 ^ 2) = 1
  rw [show ((0 : ℝ) ^ 2 + (-1) ^ 2 + 0 ^ 2) = (1 : ℝ) by norm_num]
  exact Real.sqrt_one

theorem unit_0m10 : (⟨0, -1, 0⟩ : Vec3).unit = ⟨0, -1, 0⟩ := by
  simp [Vec3.unit, norm_0m10]

theorem norm_000 : (⟨0, 0, 0⟩ : Vec3).norm = 0 := by
  show Real.sqrt ((0 : ℝ) ^ 2 + 0 ^ 2 + 0 ^ 2) = 0
  rw [show ((0 : ℝ) ^ 2 + 0 ^ 2 + 0 ^ 2) = (0 : ℝ) by norm_num]
  exact Real.sqrt_zero

theorem cross_up_001 : Vec3.cross globalUp ⟨0, 0, 1⟩ = ⟨0, 0, 0⟩ := by
  rw [Vec3.ext_iff]
  norm_num [Vec3.cross, globalUp]

theorem cross_X_001 : Vec3.cross worldX ⟨0, 0, 1⟩ = ⟨0, -1, 0⟩ := by
  rw [Vec3.ext_iff]
  norm_num [Vec3.cross, worldX]

theorem scenario_candidate :
    claimCandidate 3 scenarioColumn = some scenarioPlacement := by
  unfold claimCandidate
  rw [scenario_axis]
  show claimCandidateCore 3 scenarioColumn ⟨0, 0, 0⟩ ⟨0, 0, 6⟩ = some scenarioPlacement
  have hsub : Vec3.sub ⟨0, 0, 6⟩ ⟨0, 0, 0⟩ = ⟨0, 0, 6⟩ := by
    rw [Vec3.ext_iff]
    norm_num [Vec3.sub]
  unfold claimCandidateCore
  rw [hsub]
  norm_num [EPS, unit_006, cross_up_001, norm_000, cross_X_001, unit_0m10,
    scenario_profile, scenarioPlacement, Vec3.add, Vec3.smul, Vec3.ext_iff]

theorem scenario_filterMap :
    [scenarioColumn].filterMap (claimCandidate 3) = [scenarioPlacement] := by
  simp [List.filterMap, scenario_candidate]

theorem compute_scenario :
    compute_leg_placement [scenarioColumn] 3 0 = .ok scenarioPlacement := by
  rw [compute_leg_placement_spec, scenario_filterMap]
  unfold claimSelect
  rw [if_neg (by simp)]
  rw [dif_pos (⟨le_refl 0, by decide⟩ : 0 ≤ (0 : ℤ) ∧
    (0 : ℤ).toNat < [scenarioPlacement].length)]
  rfl

theorem compute_scenario_idx1 :
    compute_leg_placement [scenarioColumn] 3 1 = .error .invalidIndex := by
  rw [compute_leg_placement_spec, scenario_filterMap]
  unfold claimSelect
  rw [if_neg (by simp)]
  rw [dif_neg (by decide :
    ¬ (0 ≤ (1 : ℤ) ∧ (1 : ℤ).toNat < [scenarioPlacement].length))]

/-- C1 — corrected.  First conjunct: the solver equals the claim's
description (iterate columns in model order, skip on failed axis /
near-horizontal axis / `t ∉ [0,1]`, build the candidate by the stated
formulas, `NoCandidateError` on an empty list, `InvalidIndexError` outside
`[0, count)`, else the indexed candidate).  Second conjunct: the amended
scenario — axis (0,0,0)–(0,0,6), target 3.0, outer radius 0.2, no inner
radius gives t = 1/2, center (0,0,3), direction (0,0,1), offset 0.1 and
insertion point (0, -0.1, 3), not (0.1, 0, 3) as the spec scenario says. -/
theorem claim_C1 :
    (∀ (columns : List Column) (target_height : ℝ) (leg_index : ℤ),
        compute_leg_placement columns target_height leg_index
          = claimSelect (columns.filterMap (claimCandidate target_height)) leg_index)
  ∧ compute_leg_placement [scenarioColumn] 3 0 = .ok scenarioPlacement :=
  ⟨compute_leg_placement_spec, compute_scenario⟩

/-- C1 counterexample: on the spec's own scenario the computed insertion
point is (0, -0.1, 3), not the claimed (0.1, 0, 3). -/
theorem claim_C1_counterexample :
    compute_leg_placement [scenarioColumn] 3 0 = .ok scenarioPlacement
  ∧ scenarioPlacement.insertion_point ≠ ⟨1 / 10, 0, 3⟩ := by
  refine ⟨compute_scenario, fun h => ?_⟩
  have hx := congrArg Vec3.x h
  simp only [scenarioPlacement] at hx
  norm_num at hx

/-- C10 — confirmed: inside the solver no `normalize` call can raise.  The
loop body is total (it returns the spec-side candidate), and the solver as
a whole can only fail with `NoCandidateError` or `InvalidIndexError`,
never with the degenerate-vector error. -/
theorem claim_C10 :
    (∀ (target_height : ℝ) (c : Column),
        processColumn target_height c = .ok (claimCandidate target_height c))
  ∧ (∀ (columns : List Column) (target_height : ℝ) (leg_index : ℤ),
        compute_leg_placement columns target_height leg_index
          ≠ .error .degenerateVector) := by
  refine ⟨processColumn_eq, ?_⟩
  intro columns target_height leg_index
  rw [compute_leg_placement_spec]
  unfold claimSelect
  by_cases he : (columns.filterMap (claimCandidate target_height)).isEmpty
  · rw [if_pos he]
    simp
  · rw [if_neg he]
    by_cases hi : 0 ≤ leg_index ∧
        leg_index.toNat < (columns.filterMap (claimCandidate target_height)).length
    · rw [dif_pos hi]
      simp
    · rw [dif_neg hi]
      simp

theorem axisCandidate_of_ne (rm : RepresentationMap)
    (h : rm.mappedRepresentation.representationIdentifier ≠ some "Axis") :
    axisCandidate rm = none := by
  unfold axisCandidate
  rw [if_neg h]

/-- The skip-based scan of the source equals "first qualifying axis
representation" on the spec side. -/
theorem axisFromMaps_eq (maps : List RepresentationMap) :
    axisFromMaps maps =
      match (maps.filterMap axisCandidate).head? with
      | some pq => Except.ok pq
      | none => Except.error AxisError.noAxis := by
  induction maps with
  | nil => rfl
  | cons rm rest ih =>
    obtain ⟨⟨oid, items⟩⟩ := rm
    simp only [axisFromMaps, List.filterMap_cons, axisCandidate]
    by_cases hid : oid = some "Axis"
    · subst hid
      rw [if_neg (by simp), if_pos rfl]
      cases items with
      | nil => exact ih
      | cons item tl0 =>
        cases hpts : read_polycurve_points item with
        | nil =>
          simp only [hpts]
          exact ih
        | cons p ptl =>
          cases ptl with
          | nil =>
            simp only [hpts]
            exact ih
          | cons q tl =>
            simp only [hpts]
            rfl
    · rw [if_pos hid, if_neg hid]
      exact ih

/-- C8 — confirmed: `axisEndpoints` returns the (first, last) points of the
first curve item of the first "Axis" representation of the member type
that yields at least 2 points (the `filterMap`/`head?` form), failing
otherwise; and the curve reader handles both indexed poly-curves and
polylines, padding 2-D coordinates with `z = 0` and yielding no points
for any other item class. -/
theorem claim_C8 :
    (∀ column : Column,
        get_column_axis_points column =
          match column.isTypedBy with
          | [] => Except.error AxisError.noType
          | tr :: _ =>
            match ((tr.relatingType.representationMaps.getD []).filterMap
                axisCandidate).head? with
            | some pq => Except.ok pq
            | none => Except.error AxisError.noAxis)
  ∧ (∀ l, read_polycurve_points (.indexedPolyCurve l) = l.map Coord.toPoint)
  ∧ (∀ l, read_polycurve_points (.polyline l) = l.map Coord.toPoint)
  ∧ (∀ p : Profile, read_polycurve_points (.extrudedAreaSolid p) = [])
  ∧ read_polycurve_points .otherItem = []
  ∧ (∀ x y : ℝ, Coord.toPoint (.two x y) = ⟨x, y, 0⟩) := by
  refine ⟨?_, fun l => rfl, fun l => rfl, fun p => rfl, rfl, fun x y => rfl⟩
  intro column
  unfold get_column_axis_points
  cases column.isTypedBy with
  | nil => rfl
  | cons tr rest => exact axisFromMaps_eq _

/-- C2 — corrected.  (a) A missing input file or a non-positive elevation
makes the process exit with code 2.  (b) When every step succeeds the
process exits with code 0.  (c) When the placement solver fails — no
candidate, or a selection index outside `[0, count)` — the `ValueError`
is not caught by `main`, so the process terminates on an uncaught
exception with exit code 1, not 2. -/
theorem claim_C2 :
    (∀ env : MainEnv,
        env.segment_exists = false ∨ env.antenna_exists = false ∨ env.height_m ≤ 0 →
        processExitCode (mainResult env) = 2)
  ∧ (∀ (env : MainEnv) (lp : LegPlacement),
        env.segment_exists = true → env.antenna_exists = true →
        ¬ env.height_m ≤ 0 →
        compute_leg_placement env.segment_columns (env.height_m / env.unit_scale)
          env.leg_index = .ok lp →
        ¬ lp.leg.containedInStructure.isEmpty = true →
        env.tail_ok = true →
        processExitCode (mainResult env) = 0)
  ∧ (∀ (env : MainEnv) (e : GeomError),
        env.segment_exists = true → env.antenna_exists = true →
        ¬ env.height_m ≤ 0 →
        compute_leg_placement env.segment_columns (env.height_m / env.unit_scale)
          env.leg_index = .error e →
        mainResult env = .uncaught ∧ processExitCode (mainResult env) = 1) := by
  refine ⟨?_, ?_, ?_⟩
  · intro env h
    unfold mainResult
    rcases h with h | h | h
    · rw [if_pos h]
      rfl
    · by_cases hs : env.segment_exists = false
      · rw [if_pos hs]
        rfl
      · rw [if_neg hs, if_pos h]
        rfl
    · by_cases hs : env.segment_exists = false
      · rw [if_pos hs]
        rfl
      · rw [if_neg hs]
        by_cases ha : env.antenna_exists = false
        · rw [if_pos ha]
          rfl
        · rw [if_neg ha, if_pos h]
          rfl
  · intro env lp hs ha hh hcomp hcont ht
    unfold mainResult
    rw [if_neg (by simp [hs]), if_neg (by simp [ha]), if_neg hh, hcomp]
    show processExitCode (if lp.leg.containedInStructure.isEmpty = true then .exit 2
      else if env.tail_ok = true then .exit 0 else .uncaught) = 0
    rw [if_neg hcont, if_pos ht]
    rfl
  · intro env e hs ha hh hcomp
    unfold mainResult
    rw [if_neg (by simp [hs]), if_neg (by simp [ha]), if_neg hh, hcomp]
    exact ⟨rfl, rfl⟩

/-- All-checks-pass environment for the scenario model. -/
noncomputable def envSuccess : MainEnv :=
  ⟨true, true, 3, 1, 0, [scenarioColumn], true⟩

/-- Environment with the segment file missing. -/
noncomputable def envMissing : MainEnv :=
  ⟨false, true, 3, 1, 0, [scenarioColumn], true⟩

/-- Environment whose selection index (1) equals the candidate count. -/
noncomputable def envBadIndex : MainEnv :=
  ⟨true, true, 3, 1, 1, [scenarioColumn], true⟩

theorem claim_C2_witness :
    processExitCode (mainResult envMissing) = 2
  ∧ processExitCode (mainResult envSuccess) = 0
  ∧ processExitCode (mainResult envBadIndex) = 1 := by
  refine ⟨claim_C2.1 envMissing (Or.inl rfl), ?_, ?_⟩
  · refine claim_C2.2.1 envSuccess scenarioPlacement rfl rfl
      (by show ¬ (3 : ℝ) ≤ 0; norm_num) ?_ ?_ rfl
    · show compute_leg_placement [scenarioColumn] ((3 : ℝ) / 1) 0 = .ok scenarioPlacement
      rw [show (3 : ℝ) / 1 = 3 by norm_num]
      exact compute_scenario
    · simp [scenarioPlacement, scenarioColumn]
  · refine (claim_C2.2.2 envBadIndex .invalidIndex rfl rfl
      (by show ¬ (3 : ℝ) ≤ 0; norm_num) ?_).2
    show compute_leg_placement [scenarioColumn] ((3 : ℝ) / 1) 1 = .error .invalidIndex
    rw [show (3 : ℝ) / 1 = 3 by norm_num]
    exact compute_scenario_idx1

/-- C2 counterexample: with one candidate and selection index 1 (equal to
the candidate count) the process terminates on an uncaught `ValueError`
with exit code 1, refuting "exit code 2". -/
theorem claim_C2_counterexample :
    mainResult envBadIndex = .uncaught
  ∧ processExitCode (mainResult envBadIndex) ≠ 2 := by
  have h : mainResult envBadIndex = .uncaught := by
    unfold mainResult envBadIndex
    rw [if_neg (by simp), if_neg (by simp), if_neg (by norm_num)]
    rw [show (3 : ℝ) / 1 = 3 by norm_num]
    rw [compute_scenario_idx1]
  refine ⟨h, ?_⟩
  rw [h]
  decide

/-! ## Part 2: the entity-graph model

The relationship-rewiring, GUID-refresh and harmonization functions of the
source operate on `ifcopenshell` models.  Following the spec's data model
(spec section 3) and consumed interface (spec section 6), a model is an
in-memory graph of typed entities with local numeric handles, forward
references held in attributes, and derived inverse references. -/

/-- An attribute value: null, a scalar (only strings are relevant to the
functions under verification), a single entity reference, or an ordered
reference list. -/
inductive AttrVal where
  | null
  | str (s : String)
  | ref (h : Nat)
  | refList (hs : List Nat)
  deriving Repr, DecidableEq

/-- A typed entity: class name plus named attributes. -/
structure Entity where
  cls : String
  attrs : List (String × AttrVal)
  deriving Repr, DecidableEq

/-- A model: entities keyed by handle (in model iteration order) plus the
next free handle. -/
structure Model where
  entities : List (Nat × Entity)
  nextId : Nat
  deriving Repr, DecidableEq

/-- Modelled from the spec / IFC schema: the superclass chains of the
entity classes this program touches, used by the `is_a` dispatch (the
schema itself lives in the external library).  Only membership of the
classes the source tests for — the three relationship classes,
`IfcTypeObject`, `IfcRoot`, `IfcOwnerHistory` — matters. -/
def ancestry : String → List String
  | "IfcRelDefinesByType" =>
    ["IfcRelDefinesByType", "IfcRelDefines", "IfcRelationship", "IfcRoot"]
  | "IfcRelDefinesByProperties" =>
    ["IfcRelDefinesByProperties", "IfcRelDefines", "IfcRelationship", "IfcRoot"]
  | "IfcRelAssociatesMaterial" =>
    ["IfcRelAssociatesMaterial", "IfcRelAssociates", "IfcRelationship", "IfcRoot"]
  | "IfcRelContainedInSpatialStructure" =>
    ["IfcRelContainedInSpatialStructure", "IfcRelConnects", "IfcRelationship", "IfcRoot"]
  | "IfcCommunicationsAppliance" =>
    ["IfcCommunicationsAppliance", "IfcFlowTerminal", "IfcDistributionFlowElement",
     "IfcDistributionElement", "IfcElement", "IfcProduct", "IfcObject",
     "IfcObjectDefinition", "IfcRoot"]
  | "IfcCommunicationsApplianceType" =>
    ["IfcCommunicationsApplianceType", "IfcFlowTerminalType",
     "IfcDistributionFlowElementType", "IfcDistributionElementType",
     "IfcElementType", "IfcTypeProduct", "IfcTypeObject",
     "IfcObjectDefinition", "IfcRoot"]
  | "IfcColumn" =>
    ["IfcColumn", "IfcBuildingElement", "IfcElement", "IfcProduct", "IfcObject",
     "IfcObjectDefinition", "IfcRoot"]
  | "IfcPropertySet" =>
    ["IfcPropertySet", "IfcPropertySetDefinition", "IfcPropertyDefinition", "IfcRoot"]
  | "IfcBuildingStorey" =>
    ["IfcBuildingStorey", "IfcSpatialStructureElement", "IfcSpatialElement",
     "IfcProduct", "IfcObject", "IfcObjectDefinition", "IfcRoot"]
  | "IfcMaterial" => ["IfcMaterial", "IfcMaterialDefinition"]
  | c => [c]

/-- `entity.is_a(cls)`. -/
def Entity.isA (e : Entity) (cls : String) : Bool :=
  (ancestry e.cls).contains cls

/-- `model.by_id(h)` (first entry with the handle). -/
def Model.byId (m : Model) (h : Nat) : Option Entity :=
  m.entities.lookup h

/-- `model.by_type(cls)`, in model iteration order. -/
def Model.byType (m : Model) (cls : String) : List (Nat × Entity) :=
  m.entities.filter (fun p => p.2.isA cls)

/-- The handles a single attribute value forward-references. -/
def AttrVal.refs : AttrVal → List Nat
  | .ref h => [h]
  | .refList hs => hs
  | _ => []

/-- All handles an entity forward-references. -/
def Entity.refs (e : Entity) : List Nat :=
  e.attrs.foldr (fun p acc => p.2.refs ++ acc) []

/-- `model.get_inverse(entity)`: the entities whose attributes reference
the handle (the derived reverse index of the spec). -/
def Model.getInverse (m : Model) (h : Nat) : List (Nat × Entity) :=
  m.entities.filter (fun p => p.2.refs.contains h)

/-- `model.remove(entity)`. -/
def Model.removeEntity (m : Model) (h : Nat) : Model :=
  ⟨m.entities.filter (fun p => p.1 != h), m.nextId⟩

/-- `model.create_entity(...)`: appends the entity under a fresh handle. -/
def Model.createEntity (m : Model) (e : Entity) : Model × Nat :=
  (⟨m.entities ++ [(m.nextId, e)], m.nextId + 1⟩, m.nextId)

/-- Attribute read; a missing attribute reads as null. -/
def Entity.getAttr (e : Entity) (name : String) : AttrVal :=
  (e.attrs.lookup name).getD .null

/-- Attribute write on an entity. -/
def Entity.setAttr (e : Entity) (name : String) (v : AttrVal) : Entity :=
  ⟨e.cls, (name, v) :: e.attrs.filter (fun p => p.1 != name)⟩

/-- Attribute write through the model (`entity.Attr = value`). -/
def Model.setAttr (m : Model) (h : Nat) (name : String) (v : AttrVal) : Model :=
  ⟨m.entities.map (fun p => if p.1 = h then (p.1, p.2.setAttr name v) else p),
   m.nextId⟩

/-- `first_owner_history`: handle of the first `IfcOwnerHistory` of the
model, if any. -/
def first_owner_history (m : Model) : Option Nat :=
  (m.byType "IfcOwnerHistory").head?.map Prod.fst

/-- `find_source_antenna`'s predicate:
`str(getattr(antenna, "PredefinedType", "") or "").upper() == "ANTENNA"`
(a null or missing attribute reads as the empty string; the comparison is
case-insensitive via upper-casing). -/
def isAntennaPred (e : Entity) : Bool :=
  (match e.getAttr "PredefinedType" with
   | .str s => s
   | _ => "").toUpper == "ANTENNA"

/-- The `for antenna in antennas: if ...: return antenna` loop of
`find_source_antenna`. -/
def findAntennaLoop : List (Nat × Entity) → Option (Nat × Entity)
  | [] => none
  | a :: rest => if isAntennaPred a.2 then some a else findAntennaLoop rest

/-- `find_source_antenna`: error when the donor model has no
`IfcCommunicationsAppliance`; else the first appliance whose
`PredefinedType` upper-cases to `"ANTENNA"`, falling back to the first
appliance. -/
def find_source_antenna (m : Model) : Except String (Nat × Entity) :=
  match m.byType "IfcCommunicationsAppliance" with
  | [] => .error "no IfcCommunicationsAppliance"
  | a :: rest =>
    match findAntennaLoop (a :: rest) with
    | some found => .ok found
    | none => .ok a

/-- C9 — confirmed: the donor-entity selection errors iff the donor model
has no appliance; otherwise it returns the first appliance (model order)
whose `PredefinedType` equals `"ANTENNA"` case-insensitively, with the
first appliance as fallback. -/
theorem claim_C9 :
    (∀ m : Model,
        find_source_antenna m =
          match m.byType "IfcCommunicationsAppliance" with
          | [] => .error "no IfcCommunicationsAppliance"
          | a :: rest =>
            .ok ((((a :: rest).find? (fun p => isAntennaPred p.2))).getD a))
  ∧ (∀ s, isAntennaPred ⟨"IfcCommunicationsAppliance", [("PredefinedType", .str s)]⟩ =
        (s.toUpper == "ANTENNA")) := by
  constructor
  · intro m
    unfold find_source_antenna
    cases hb : m.byType "IfcCommunicationsAppliance" with
    | nil => rfl
    | cons a rest =>
      have loop_eq : ∀ (l : List (Nat × Entity)),
          findAntennaLoop l = l.find? (fun p => isAntennaPred p.2) := by
        intro l
        induction l with
        | nil => rfl
        | cons b tl ih =>
          unfold findAntennaLoop
          rw [List.find?_cons]
          by_cases hp : isAntennaPred b.2
          · rw [if_pos hp, hp]
          · rw [if_neg hp, ih, Bool.of_not_eq_true hp]
      show (match findAntennaLoop (a :: rest) with
            | some found => Except.ok found
            | none => Except.ok a) =
          Except.ok (((a :: rest).find? (fun p => isAntennaPred p.2)).getD a)
      rw [loop_eq]
      cases hf : (a :: rest).find? (fun p => isAntennaPred p.2) <;> rfl
  · intro s
    rfl

/-! ### Attribute-update lemmas -/

theorem Entity.cls_setAttr (e : Entity) (n : String) (v : AttrVal) :
    (e.setAttr n v).cls = e.cls := rfl

theorem Entity.isA_setAttr (e : Entity) (n : String) (v : AttrVal) (cls : String) :
    (e.setAttr n v).isA cls = e.isA cls := rfl

theorem lookup_filter_ne (l : List (String × AttrVal)) (n n2 : String) (h : n2 ≠ n) :
    (l.filter (fun p => p.1 != n)).lookup n2 = l.lookup n2 := by
  induction l with
  | nil => rfl
  | cons a tl ih =>
    obtain ⟨k, x⟩ := a
    rw [List.filter_cons]
    by_cases hk : k = n
    · subst hk
      rw [if_neg (by simp)]
      rw [ih, List.lookup_cons]
      rw [show (n2 == k) = false from beq_eq_false_iff_ne.2 h]
    · rw [if_pos (by exact bne_iff_ne.2 hk)]
      rw [List.lookup_cons, List.lookup_cons]
      cases hb : n2 == k with
      | false => exact ih
      | true => rfl

theorem Entity.getAttr_setAttr_eq (e : Entity) (n : String) (v : AttrVal) :
    (e.setAttr n v).getAttr n = v := by
  unfold Entity.getAttr Entity.setAttr
  rw [List.lookup_cons]
  simp

theorem Entity.getAttr_setAttr_ne (e : Entity) (n n2 : String) (v : AttrVal)
    (h : n2 ≠ n) : (e.setAttr n v).getAttr n2 = e.getAttr n2 := by
  unfold Entity.getAttr Entity.setAttr
  rw [List.lookup_cons]
  rw [show (n2 == n) = false from by simp [h]]
  rw [lookup_filter_ne _ _ _ h]

theorem lookup_map_upd (l : List (Nat × Entity)) (h h2 : Nat) (f : Entity → Entity) :
    (l.map (fun p => if p.1 = h then (p.1, f p.2) else p)).lookup h2 =
      if h2 = h then (l.lookup h2).map f else l.lookup h2 := by
  induction l with
  | nil => simp
  | cons a tl ih =>
    obtain ⟨k, e⟩ := a
    simp only [List.map_cons]
    rw [show (if k = h then (k, f e) else (k, e))
          = (k, if k = h then f e else e) from by split <;> rfl]
    rw [List.lookup_cons, List.lookup_cons]
    cases hb : h2 == k with
    | false => exact ih
    | true =>
      have h2k : h2 = k := eq_of_beq hb
      subst h2k
      by_cases hk : h2 = h
      · rw [if_pos hk, if_pos hk]
        rfl
      · rw [if_neg hk, if_neg hk]

theorem Model.byId_setAttr (m : Model) (h : Nat) (n : String) (v : AttrVal) (h2 : Nat) :
    (m.setAttr h n v).byId h2 =
      if h2 = h then (m.byId h2).map (fun e => e.setAttr n v) else m.byId h2 := by
  unfold Model.byId Model.setAttr
  exact lookup_map_upd m.entities h h2 (fun e => e.setAttr n v)

/-! ### `attach_to_container` (claim C7) -/

/-- `container.ContainsElements`: the inverse attribute — containment
relations whose `RelatingStructure` is the container, in model order. -/
def Model.containsElements (m : Model) (h : Nat) : List (Nat × Entity) :=
  m.entities.filter (fun p =>
    p.2.isA "IfcRelContainedInSpatialStructure" &&
      (p.2.getAttr "RelatingStructure" == AttrVal.ref h))

/-- `list(relation.RelatedElements or [])` as a handle list. -/
def relatedElementsOf (e : Entity) : List Nat :=
  match e.getAttr "RelatedElements" with
  | .refList hs => hs
  | _ => []

/-- The owner history used for a freshly created containment relation:
`first_owner_history(model) or product.OwnerHistory`. -/
def ownerHistoryFor (m : Model) (product : Nat) : AttrVal :=
  match first_owner_history m with
  | some ohh => .ref ohh
  | none =>
    match m.byId product with
    | some e => e.getAttr "OwnerHistory"
    | none => .null

/-- The entity created by `attach_to_container` when the container has no
containment relation yet. -/
def newContainmentRel (m : Model) (container product : Nat) (guid : String) : Entity :=
  ⟨"IfcRelContainedInSpatialStructure",
   [("GlobalId", .str guid), ("OwnerHistory", ownerHistoryFor m product),
    ("Name", .null), ("Description", .null),
    ("RelatedElements", .refList [product]),
    ("RelatingStructure", .ref container)]⟩

/-- `attach_to_container`: append to the first containment relation's
related-elements list unless the product is already in it; create a fresh
relation when the container has none.  The fresh GUID is passed in
(`ifcopenshell.guid.new()` is an external generator). -/
def attach_to_container (m : Model) (container product : Nat) (guid : String) : Model :=
  match m.containsElements container with
  | [] => (m.createEntity (newContainmentRel m container product guid)).1
  | (rh, re) :: _ =>
    let current := relatedElementsOf re
    if product ∈ current then m
    else m.setAttr rh "RelatedElements" (.refList (current ++ [product]))

/-- Total number of occurrences of `product` across the related-elements
lists of the container's containment relations. -/
def containmentOccurrences (m : Model) (container product : Nat) : Nat :=
  ((m.containsElements container).map
    (fun p => (relatedElementsOf p.2).count product)).sum

/-- Updating the `RelatedElements` attribute preserves the membership test
of the containment filter, so `ContainsElements` maps through. -/
theorem containsElements_setAttr (m : Model) (rh c : Nat) (v : AttrVal) :
    (m.setAttr rh "RelatedElements" v).containsElements c =
      (m.containsElements c).map
        (fun p => if p.1 = rh then (p.1, p.2.setAttr "RelatedElements" v) else p) := by
  unfold Model.containsElements Model.setAttr
  rw [List.filter_map]
  congr 1
  apply List.filter_congr
  intro p _
  by_cases hp : p.1 = rh
  · simp only [Function.comp, if_pos hp]
    rw [Entity.isA_setAttr]
    rw [Entity.getAttr_setAttr_ne _ _ _ _ (by decide)]
  · simp only [Function.comp, if_neg hp]

theorem keysNodup_containsElements (m : Model)
    (hnd : (m.entities.map Prod.fst).Nodup) :
    ((m.containsElements c).map Prod.fst).Nodup := by
  unfold Model.containsElements
  exact (List.Sublist.map _ (List.filter_sublist _)).nodup hnd

theorem relatedElementsOf_setAttr (e : Entity) (l : List Nat) :
    relatedElementsOf (e.setAttr "RelatedElements" (.refList l)) = l := by
  unfold relatedElementsOf
  rw [Entity.getAttr_setAttr_eq]

theorem newRel_matches (m : Model) (c pr : Nat) (guid : String) :
    ((newContainmentRel m c pr guid).isA "IfcRelContainedInSpatialStructure" &&
      ((newContainmentRel m c pr guid).getAttr "RelatingStructure"
        == AttrVal.ref c)) = true := by
  simp [newContainmentRel, Entity.isA, ancestry, Entity.getAttr, List.lookup]

theorem relatedElementsOf_newRel (m : Model) (c pr : Nat) (guid : String) :
    relatedElementsOf (newContainmentRel m c pr guid) = [pr] := by
  simp [newContainmentRel, relatedElementsOf, Entity.getAttr, List.lookup]

theorem containsElements_createNewRel (m : Model) (c pr : Nat) (guid : String) :
    ((m.createEntity (newContainmentRel m c pr guid)).1).containsElements c =
      m.containsElements c ++ [(m.nextId, newContainmentRel m c pr guid)] := by
  show List.filter _ (m.entities ++ [(m.nextId, newContainmentRel m c pr guid)]) = _
  rw [List.filter_append]
  congr 1
  rw [List.filter_cons]
  rw [if_pos (newRel_matches m c pr guid)]
  rfl

/-- C7 — confirmed.  (i) When the product is already in the first
containment relation's list the call is a no-op.  (ii) When it is not, the
call appends it to the existing list — a list-append preserving all
elements already present, not a replace.  (iii) When the container has no
containment relation, a fresh one with exactly `[product]` is created.
(iv) Calling the function twice with the same (container, product) pair on
a model where the product is not yet contained leaves exactly one
occurrence of the product in the container's related-elements lists. -/
theorem claim_C7 :
    (∀ (m : Model) (c pr : Nat) (guid : String) (rh : Nat) (re : Entity)
        (rest : List (Nat × Entity)),
        m.containsElements c = (rh, re) :: rest →
        pr ∈ relatedElementsOf re →
        attach_to_container m c pr guid = m)
  ∧ (∀ (m : Model) (c pr : Nat) (guid : String) (rh : Nat) (re : Entity)
        (rest : List (Nat × Entity)),
        m.containsElements c = (rh, re) :: rest →
        pr ∉ relatedElementsOf re →
        attach_to_container m c pr guid =
          m.setAttr rh "RelatedElements"
            (.refList (relatedElementsOf re ++ [pr])))
  ∧ (∀ (m : Model) (c pr : Nat) (guid : String),
        m.containsElements c = [] →
        attach_to_container m c pr guid =
          (m.createEntity (newContainmentRel m c pr guid)).1 ∧
        relatedElementsOf (newContainmentRel m c pr guid) = [pr] ∧
        (newContainmentRel m c pr guid).getAttr "RelatingStructure" = .ref c)
  ∧ (∀ (m : Model) (c pr : Nat) (g1 g2 : String),
        (m.entities.map Prod.fst).Nodup →
        containmentOccurrences m c pr = 0 →
        containmentOccurrences
          (attach_to_container (attach_to_container m c pr g1) c pr g2) c pr = 1) := by
  have hnoop : ∀ (m : Model) (c pr : Nat) (guid : String) (rh : Nat) (re : Entity)
      (rest : List (Nat × Entity)),
      m.containsElements c = (rh, re) :: rest →
      pr ∈ relatedElementsOf re →
      attach_to_container m c pr guid = m := by
    intro m c pr guid rh re rest hce hmem
    unfold attach_to_container
    rw [hce]
    simp only [if_pos hmem]
  have happend : ∀ (m : Model) (c pr : Nat) (guid : String) (rh : Nat) (re : Entity)
      (rest : List (Nat × Entity)),
      m.containsElements c = (rh, re) :: rest →
      pr ∉ relatedElementsOf re →
      attach_to_container m c pr guid =
        m.setAttr rh "RelatedElements" (.refList (relatedElementsOf re ++ [pr])) := by
    intro m c pr guid rh re rest hce hmem
    unfold attach_to_container
    rw [hce]
    simp only [if_neg hmem]
  have hcreate : ∀ (m : Model) (c pr : Nat) (guid : String),
      m.containsElements c = [] →
      attach_to_container m c pr guid =
        (m.createEntity (newContainmentRel m c pr guid)).1 := by
    intro m c pr guid hce
    unfold attach_to_container
    rw [hce]
  refine ⟨hnoop, happend, fun m c pr guid hce =>
    ⟨hcreate m c pr guid hce, relatedElementsOf_newRel m c pr guid, by
      simp [newContainmentRel, Entity.getAttr, List.lookup]⟩, ?_⟩
  intro m c pr g1 g2 hnd hocc
  cases hce : m.containsElements c with
  | nil =>
    rw [hcreate m c pr g1 hce]
    have hm1ce := containsElements_createNewRel m c pr g1
    rw [hce] at hm1ce
    rw [hnoop _ c pr g2 m.nextId (newContainmentRel m c pr g1) [] (by simpa using hm1ce)
      (by rw [relatedElementsOf_newRel]; exact List.mem_singleton.2 rfl)]
    unfold containmentOccurrences
    rw [hm1ce]
    simp [relatedElementsOf_newRel]
  | cons hd rest =>
    obtain ⟨rh, re⟩ := hd
    have hocc0 : (relatedElementsOf re).count pr = 0 ∧
        ((rest.map (fun p => (relatedElementsOf p.2).count pr)).sum = 0) := by
      unfold containmentOccurrences at hocc
      rw [hce] at hocc
      simpa [Nat.add_eq_zero] using hocc
    have hnotmem : pr ∉ relatedElementsOf re := List.count_eq_zero.1 hocc0.1
    rw [happend m c pr g1 rh re rest hce hnotmem]
    have hm1ce : (m.setAttr rh "RelatedElements"
          (.refList (relatedElementsOf re ++ [pr]))).containsElements c =
        (rh, re.setAttr "RelatedElements" (.refList (relatedElementsOf re ++ [pr])))
          :: rest := by
      rw [containsElements_setAttr, hce]
      rw [List.map_cons]
      rw [show (if ((rh, re) : Nat × Entity).1 = rh
            then (((rh, re) : Nat × Entity).1, re.setAttr "RelatedElements"
                   (.refList (relatedElementsOf re ++ [pr])))
            else (rh, re)) = (rh, re.setAttr "RelatedElements"
              (.refList (relatedElementsOf re ++ [pr]))) from by rw [if_pos rfl]]
      congr 1
      have hkeys : ((m.containsElements c).map Prod.fst).Nodup :=
        keysNodup_containsElements m hnd

      rw [hce] at hkeys
      simp only [List.map_cons, List.nodup_cons] at hkeys
      have hrest : List.map (fun p => if p.1 = rh
            then (p.1, p.2.setAttr "RelatedElements"
                   (AttrVal.refList (relatedElementsOf re ++ [pr])))
            else p) rest = List.map id rest := by
        apply List.map_congr_left
        intro p hp
        simp only [id]
        rw [if_neg]
        intro hph
        exact hkeys.1 (hph ▸ (List.mem_map_of_mem Prod.fst hp))
      rw [hrest, List.map_id]
    rw [hnoop _ c pr g2 rh
      (re.setAttr "RelatedElements" (.refList (relatedElementsOf re ++ [pr]))) rest hm1ce
      (by rw [relatedElementsOf_setAttr]; exact List.mem_append_right _ (List.mem_singleton.2 rfl))]
    unfold containmentOccurrences
    rw [hm1ce]
    rw [List.map_cons, List.sum_cons, relatedElementsOf_setAttr, List.count_append,
      hocc0.1, hocc0.2]
    simp

/-! ### `harmonize_migrated_owner_history` (claims C5, C6) -/

/-- A removal performed by the harmonizer: the removed handle and the
model state immediately before the removal. -/
structure RemovalEvent where
  handle : Nat
  pre : Model
  deriving Repr, DecidableEq

/-- `remove_if_orphan`, instrumented with a removal log: no-op on a null
entity or when inverse references remain, otherwise remove. -/
def remove_if_orphan (m : Model) (ho : Option Nat) : Model × List RemovalEvent :=
  match ho with
  | none => (m, [])
  | some h =>
    if m.getInverse h ≠ [] then (m, [])
    else (m.removeEntity h, [⟨h, m⟩])

/-- Reads an entity's attribute as an entity reference
(`entity.Attr`, null/missing read as `None`). -/
def refAttr (m : Model) (h : Nat) (name : String) : Option Nat :=
  match m.byId h with
  | some e =>
    match e.getAttr name with
    | .ref r => some r
    | _ => none
  | none => none

/-- Set insertion; the Python `set` iterates in unspecified order, modelled
here as insertion order (the proved properties do not depend on it). -/
def insertOnce (l : List Nat) (x : Nat) : List Nat :=
  if x ∈ l then l else l ++ [x]

/-- Model effect of one first-pass step: a root entity's owner-history
reference is overwritten with the target record. -/
def pass1Model (toh : Nat) (m : Model) (tid : Nat) (e : Entity) : Model :=
  if e.isA "IfcRoot" then m.setAttr tid "OwnerHistory" (.ref toh) else m

/-- Set effect of one first-pass step: a migrated owner history joins the
obsolete set, and a root's donor-origin owner-history reference (when
different from the target record) joins it too. -/
def pass1Ohs (toh : Nat) (ohs : List Nat) (tid : Nat) (e : Entity) : List Nat :=
  let ohs1 := if e.isA "IfcOwnerHistory" then insertOnce ohs tid else ohs
  if e.isA "IfcRoot" then
    match e.getAttr "OwnerHistory" with
    | .ref r => if r ≠ toh then insertOnce ohs1 r else ohs1
    | _ => ohs1
  else ohs1

/-- One step of the harmonizer's first pass over the migration manifest:
record migrated owner histories, record a root's donor-origin owner
history when different from the target record (read before the
overwrite), and overwrite the root's reference with the target record. -/
def harmonizePass1 (toh : Nat) (st : Model × List Nat) (tid : Nat) :
    Model × List Nat :=
  match st.1.byId tid with
  | none => st
  | some e => (pass1Model toh st.1 tid e, pass1Ohs toh st.2 tid e)

/-- `owning_user.Attr if owning_user else None`. -/
def personAttr (m : Model) (user : Option Nat) (name : String) : Option Nat :=
  match user with
  | some u => refAttr m u name
  | none => none

/-- One step of the harmonizer's removal loop: skip the target record, skip
records that still have inverse references, otherwise read the metadata
chain, remove the record, and cascade `remove_if_orphan` over application,
user, person and organization in that order. -/
def processOh (toh : Nat) (acc : Model × List RemovalEvent) (oh : Nat) :
    Model × List RemovalEvent :=
  let m := acc.1
  if oh = toh then acc
  else if m.getInverse oh ≠ [] then acc
  else
    let app := refAttr m oh "OwningApplication"
    let user := refAttr m oh "OwningUser"
    let person := personAttr m user "ThePerson"
    let organization := personAttr m user "TheOrganization"
    let m1 := m.removeEntity oh
    let r2 := remove_if_orphan m1 app
    let r3 := remove_if_orphan r2.1 user
    let r4 := remove_if_orphan r3.1 person
    let r5 := remove_if_orphan r4.1 organization
    (r5.1, acc.2 ++ ⟨oh, m⟩ :: (r2.2 ++ r3.2 ++ r4.2 ++ r5.2))

/-- `harmonize_migrated_owner_history`, instrumented with the removal log.
`vals` is the migration manifest (`migrator.migrated_ids.values()`). -/
def harmonize_migrated_owner_history (tgt : Model) (vals : List Nat)
    (target_oh : Option Nat) : Model × List RemovalEvent :=
  match target_oh with
  | none => (tgt, [])
  | some toh =>
    let st := vals.foldl (harmonizePass1 toh) (tgt, [])
    st.2.foldl (processOh toh) (st.1, [])

theorem lookup_filter_ne_key {α β : Type} [BEq α] [LawfulBEq α]
    (l : List (α × β)) (n n2 : α) (h : n2 ≠ n) :
    (l.filter (fun p => p.1 != n)).lookup n2 = l.lookup n2 := by
  induction l with
  | nil => rfl
  | cons a tl ih =>
    obtain ⟨k, x⟩ := a
    rw [List.filter_cons]
    by_cases hk : k = n
    · subst hk
      rw [if_neg (by simp)]
      rw [ih, List.lookup_cons]
      rw [show (n2 == k) = false from beq_eq_false_iff_ne.2 h]
    · rw [if_pos (by exact bne_iff_ne.2 hk)]
      rw [List.lookup_cons, List.lookup_cons]
      cases hb : n2 == k with
      | false => exact ih
      | true => rfl

theorem Model.byId_removeEntity_ne (m : Model) (h h2 : Nat) (hne : h2 ≠ h) :
    (m.removeEntity h).byId h2 = m.byId h2 :=
  lookup_filter_ne_key m.entities h h2 hne

theorem lookup_mem {α β : Type} [BEq α] [LawfulBEq α]
    {l : List (α × β)} {k : α} {v : β} (h : l.lookup k = some v) : (k, v) ∈ l := by
  induction l with
  | nil => simp [List.lookup] at h
  | cons a tl ih =>
    obtain ⟨a1, a2⟩ := a
    rw [List.lookup_cons] at h
    cases hb : k == a1 with
    | true =>
      rw [hb] at h
      simp only at h
      have hk : k = a1 := eq_of_beq hb
      subst hk
      cases h
      exact List.mem_cons_self _ _
    | false =>
      rw [hb] at h
      exact List.mem_cons_of_mem _ (ih h)

theorem remove_if_orphan_events (m : Model) (ho : Option Nat) :
    ∀ ev ∈ (remove_if_orphan m ho).2,
      ev.pre.getInverse ev.handle = [] ∧ ev.pre = m ∧ some ev.handle = ho := by
  intro ev hev
  cases ho with
  | none => simp [remove_if_orphan] at hev
  | some h =>
    simp only [remove_if_orphan] at hev
    by_cases hi : m.getInverse h ≠ []
    · rw [if_pos hi] at hev
      simp at hev
    · rw [if_neg hi] at hev
      simp only [List.mem_singleton] at hev
      subst hev
      exact ⟨not_ne_iff.1 hi, rfl, rfl⟩

theorem remove_if_orphan_handles (m : Model) (ho : Option Nat) :
    List.Sublist ((remove_if_orphan m ho).2.map RemovalEvent.handle) ho.toList := by
  cases ho with
  | none => exact List.nil_sublist _
  | some h =>
    simp only [remove_if_orphan]
    by_cases hi : m.getInverse h ≠ []
    · rw [if_pos hi]
      exact List.nil_sublist _
    · rw [if_neg hi]
      simp

theorem processOh_events (toh : Nat) (acc : Model × List RemovalEvent) (oh : Nat) :
    ∀ ev ∈ (processOh toh acc oh).2,
      ev ∈ acc.2 ∨ ev.pre.getInverse ev.handle = [] := by
  intro ev hev
  simp only [processOh] at hev
  by_cases h1 : oh = toh
  · rw [if_pos h1] at hev
    exact Or.inl hev
  · rw [if_neg h1] at hev
    by_cases h2 : acc.1.getInverse oh ≠ []
    · rw [if_pos h2] at hev
      exact Or.inl hev
    · rw [if_neg h2] at hev
      rcases List.mem_append.1 hev with h | h
      · exact Or.inl h
      · right
        rcases List.mem_cons.1 h with h | h
        · subst h
          exact not_ne_iff.1 h2
        · simp only [List.mem_append] at h
          rcases h with ((h | h) | h) | h
          all_goals exact (remove_if_orphan_events _ _ ev h).1

theorem foldl_processOh_events (toh : Nat) (ohs : List Nat) :
    ∀ (acc : Model × List RemovalEvent),
      (∀ ev ∈ acc.2, ev.pre.getInverse ev.handle = []) →
      ∀ ev ∈ (ohs.foldl (processOh toh) acc).2, ev.pre.getInverse ev.handle = [] := by
  induction ohs with
  | nil =>
    intro acc hacc ev hev
    exact hacc ev hev
  | cons o rest ih =>
    intro acc hacc ev hev
    rw [List.foldl_cons] at hev
    refine ih (processOh toh acc o) ?_ ev hev
    intro ev2 hev2
    rcases processOh_events toh acc o ev2 hev2 with h | h
    · exact hacc ev2 h
    · exact h

/-- C6 — confirmed.  (a) Every removal performed by the harmonizer happens
at a moment when the removed entity has zero inverse references (no entity
with a remaining referrer is ever removed).  (b) Each processed obsolete
record produces either no removals, or a cascade block starting with the
record itself followed by a subsequence of its application, user, person
and organization records, in that strict order. -/
theorem claim_C6 :
    (∀ (tgt : Model) (vals : List Nat) (target_oh : Option Nat),
        ∀ ev ∈ (harmonize_migrated_owner_history tgt vals target_oh).2,
          ev.pre.getInverse ev.handle = [])
  ∧ (∀ (toh : Nat) (acc : Model × List RemovalEvent) (oh : Nat),
        (processOh toh acc oh).2 = acc.2 ∨
        ∃ evs : List RemovalEvent,
          (processOh toh acc oh).2 = acc.2 ++ ⟨oh, acc.1⟩ :: evs ∧
          List.Sublist (evs.map RemovalEvent.handle)
            ((refAttr acc.1 oh "OwningApplication").toList ++
             (refAttr acc.1 oh "OwningUser").toList ++
             (personAttr acc.1 (refAttr acc.1 oh "OwningUser") "ThePerson").toList ++
             (personAttr acc.1 (refAttr acc.1 oh "OwningUser") "TheOrganization").toList)) := by
  constructor
  · intro tgt vals target_oh ev hev
    cases target_oh with
    | none => simp [harmonize_migrated_owner_history] at hev
    | some toh =>
      unfold harmonize_migrated_owner_history at hev
      refine foldl_processOh_events toh _ _ ?_ ev hev
      intro ev2 hev2
      exact absurd hev2 (List.not_mem_nil _)
  · intro toh acc oh
    by_cases h1 : oh = toh
    · left
      simp only [processOh]
      rw [if_pos h1]
    · by_cases h2 : acc.1.getInverse oh ≠ []
      · left
        simp only [processOh]
        rw [if_neg h1, if_pos h2]
      · right
        refine ⟨(remove_if_orphan (acc.1.removeEntity oh)
              (refAttr acc.1 oh "OwningApplication")).2 ++
            (remove_if_orphan (remove_if_orphan (acc.1.removeEntity oh)
                (refAttr acc.1 oh "OwningApplication")).1
              (refAttr acc.1 oh "OwningUser")).2 ++
            (remove_if_orphan (remove_if_orphan (remove_if_orphan (acc.1.removeEntity oh)
                  (refAttr acc.1 oh "OwningApplication")).1
                (refAttr acc.1 oh "OwningUser")).1
              (personAttr acc.1 (refAttr acc.1 oh "OwningUser") "ThePerson")).2 ++
            (remove_if_orphan (remove_if_orphan (remove_if_orphan
                  (remove_if_orphan (acc.1.removeEntity oh)
                    (refAttr acc.1 oh "OwningApplication")).1
                  (refAttr acc.1 oh "OwningUser")).1
                (personAttr acc.1 (refAttr acc.1 oh "OwningUser") "ThePerson")).1
              (personAttr acc.1 (refAttr acc.1 oh "OwningUser") "TheOrganization")).2,
          ?_, ?_⟩
        · simp only [processOh]
          rw [if_neg h1, if_neg h2]
        · rw [List.map_append, List.map_append, List.map_append]
          exact (((remove_if_orphan_handles _ _).append
              (remove_if_orphan_handles _ _)).append
                (remove_if_orphan_handles _ _)).append (remove_if_orphan_handles _ _)

/-- Schema-typedness around the canonical record (claim C5's side
condition): in a schema-valid model the owner-history metadata attributes
reference applications, users, persons and organizations — never the
canonical owner-history record itself. -/
def metadataAvoids (m : Model) (toh : Nat) : Prop :=
  ∀ p ∈ m.entities,
    p.2.getAttr "OwningApplication" ≠ .ref toh ∧
    p.2.getAttr "OwningUser" ≠ .ref toh ∧
    p.2.getAttr "ThePerson" ≠ .ref toh ∧
    p.2.getAttr "TheOrganization" ≠ .ref toh

/-- The invariant carried through the harmonizer for claim C5. -/
def canonicalSafe (toh : Nat) (m : Model) : Prop :=
  (m.byId toh).isSome = true ∧ metadataAvoids m toh

theorem metadataAvoids_remove (m : Model) (toh h : Nat)
    (hA : metadataAvoids m toh) : metadataAvoids (m.removeEntity h) toh := by
  intro p hp
  exact hA p (List.mem_of_mem_filter hp)

theorem metadataAvoids_setAttrOH (m : Model) (toh tid : Nat) (v : AttrVal)
    (hA : metadataAvoids m toh) :
    metadataAvoids (m.setAttr tid "OwnerHistory" v) toh := by
  intro p hp
  rcases List.mem_map.1 hp with ⟨q, hq, hpq⟩
  by_cases hqt : q.1 = tid
  · rw [if_pos hqt] at hpq
    subst hpq
    have h0 := hA q hq
    refine ⟨?_, ?_, ?_, ?_⟩ <;>
      rw [Entity.getAttr_setAttr_ne _ _ _ _ (by decide)]
    · exact h0.1
    · exact h0.2.1
    · exact h0.2.2.1
    · exact h0.2.2.2
  · rw [if_neg hqt] at hpq
    subst hpq
    exact hA q hq

theorem byId_isSome_setAttr (m : Model) (toh tid : Nat) (n : String) (v : AttrVal)
    (h : (m.byId toh).isSome = true) :
    ((m.setAttr tid n v).byId toh).isSome = true := by
  rw [Model.byId_setAttr]
  by_cases ht : toh = tid
  · rw [if_pos ht]
    cases hb : m.byId toh
    · rw [hb] at h
      simp at h
    · simp
  · rw [if_neg ht]
    exact h

theorem refAttr_ne (m : Model) (h toh : Nat) (name : String)
    (hsel : ∀ p ∈ m.entities, p.2.getAttr name ≠ AttrVal.ref toh) :
    refAttr m h name ≠ some toh := by
  unfold refAttr
  cases hb : m.byId h with
  | none => simp
  | some e =>
    show (match e.getAttr name with
          | AttrVal.ref r => some r
          | _ => none) ≠ some toh
    cases hv : e.getAttr name with
    | ref r =>
      intro hc
      have hr : r = toh := by simpa using hc
      subst hr
      exact hsel (h, e) (lookup_mem hb) hv
    | null => simp
    | str s => simp
    | refList hs => simp

theorem personAttr_ne (m : Model) (user : Option Nat) (toh : Nat) (name : String)
    (hsel : ∀ p ∈ m.entities, p.2.getAttr name ≠ AttrVal.ref toh) :
    personAttr m user name ≠ some toh := by
  cases user with
  | none => simp [personAttr]
  | some u => exact refAttr_ne m u toh name hsel

theorem remove_if_orphan_safe (toh : Nat) (m : Model) (ho : Option Nat)
    (hne : ho ≠ some toh) (hP : canonicalSafe toh m) :
    canonicalSafe toh (remove_if_orphan m ho).1 := by
  cases ho with
  | none => exact hP
  | some h =>
    simp only [remove_if_orphan]
    by_cases hi : m.getInverse h ≠ []
    · rw [if_pos hi]
      exact hP
    · rw [if_neg hi]
      have hht : toh ≠ h := fun hc => hne (by rw [hc])
      exact ⟨by rw [Model.byId_removeEntity_ne m h toh hht]; exact hP.1,
        metadataAvoids_remove m toh h hP.2⟩

theorem processOh_safe (toh : Nat) (acc : Model × List RemovalEvent) (oh : Nat)
    (hP : canonicalSafe toh acc.1) :
    canonicalSafe toh (processOh toh acc oh).1 := by
  simp only [processOh]
  by_cases h1 : oh = toh
  · rw [if_pos h1]
    exact hP
  · rw [if_neg h1]
    by_cases h2 : acc.1.getInverse oh ≠ []
    · rw [if_pos h2]
      exact hP
    · rw [if_neg h2]
      have hm1 : canonicalSafe toh (acc.1.removeEntity oh) :=
        ⟨by rw [Model.byId_removeEntity_ne _ oh toh (fun hc => h1 hc.symm)]; exact hP.1,
         metadataAvoids_remove _ toh oh hP.2⟩
      have hA := hP.2
      refine remove_if_orphan_safe toh _ _ ?_ (remove_if_orphan_safe toh _ _ ?_
        (remove_if_orphan_safe toh _ _ ?_ (remove_if_orphan_safe toh _ _ ?_ hm1)))
      · exact personAttr_ne _ _ _ _ (fun p hp => (hA p hp).2.2.2)
      · exact personAttr_ne _ _ _ _ (fun p hp => (hA p hp).2.2.1)
      · exact refAttr_ne _ _ _ _ (fun p hp => (hA p hp).2.1)
      · exact refAttr_ne _ _ _ _ (fun p hp => (hA p hp).1)

theorem pass1_safe (toh : Nat) (st : Model × List Nat) (tid : Nat)
    (hP : canonicalSafe toh st.1) :
    canonicalSafe toh (harmonizePass1 toh st tid).1 := by
  simp only [harmonizePass1]
  cases hb : st.1.byId tid with
  | none => exact hP
  | some e =>
    show canonicalSafe toh (pass1Model toh st.1 tid e)
    unfold pass1Model
    by_cases hr : e.isA "IfcRoot" = true
    · rw [if_pos hr]
      exact ⟨byId_isSome_setAttr _ toh tid _ _ hP.1,
        metadataAvoids_setAttrOH _ toh tid _ hP.2⟩
    · rw [if_neg hr]
      exact hP

/-- C5 — confirmed: on any schema-typed target model the harmonizer never
removes the canonical owner-history record; it is still present when
`harmonize` returns. -/
theorem claim_C5 (tgt : Model) (vals : List Nat) (toh : Nat)
    (hpresent : (tgt.byId toh).isSome = true)
    (havoid : metadataAvoids tgt toh) :
    (((harmonize_migrated_owner_history tgt vals (some toh)).1).byId toh).isSome
      = true := by
  unfold harmonize_migrated_owner_history
  have hfold1 : ∀ (l : List Nat) (st : Model × List Nat), canonicalSafe toh st.1 →
      canonicalSafe toh (l.foldl (harmonizePass1 toh) st).1 := by
    intro l
    induction l with
    | nil => intro st h; exact h
    | cons a rest ih =>
      intro st h
      rw [List.foldl_cons]
      exact ih _ (pass1_safe toh st a h)
  have hfold2 : ∀ (l : List Nat) (acc : Model × List RemovalEvent),
      canonicalSafe toh acc.1 →
      canonicalSafe toh (l.foldl (processOh toh) acc).1 := by
    intro l
    induction l with
    | nil => intro acc h; exact h
    | cons a rest ih =>
      intro acc h
      rw [List.foldl_cons]
      exact ih _ (processOh_safe toh acc a h)
  exact (hfold2 _ _ (hfold1 vals (tgt, []) ⟨hpresent, havoid⟩)).1

/-! ### Concrete models for the witnesses -/

/-- A container and a product with no containment relation yet. -/
def mW : Model :=
  ⟨[(1, ⟨"IfcBuildingStorey", []⟩), (2, ⟨"IfcCommunicationsAppliance", []⟩)], 3⟩

/-- A containment relation holding product 2 in container 1. -/
def relX : Entity :=
  ⟨"IfcRelContainedInSpatialStructure",
   [("GlobalId", .str "gx"), ("OwnerHistory", .null), ("Name", .null),
    ("Description", .null), ("RelatedElements", .refList [2]),
    ("RelatingStructure", .ref 1)]⟩

/-- A model where container 1 already contains product 2 via `relX`. -/
def mX : Model :=
  ⟨[(1, ⟨"IfcBuildingStorey", []⟩), (2, ⟨"IfcCommunicationsAppliance", []⟩),
    (3, relX)], 4⟩

theorem claim_C7_witness :
    attach_to_container mX 1 2 "g" = mX
  ∧ attach_to_container mX 1 5 "g"
      = mX.setAttr 3 "RelatedElements" (.refList (relatedElementsOf relX ++ [5]))
  ∧ attach_to_container mW 1 2 "g" = (mW.createEntity (newContainmentRel mW 1 2 "g")).1
  ∧ containmentOccurrences
      (attach_to_container (attach_to_container mW 1 2 "g1") 1 2 "g2") 1 2 = 1 := by
  refine ⟨claim_C7.1 mX 1 2 "g" 3 relX [] (by decide) (by decide),
    claim_C7.2.1 mX 1 5 "g" 3 relX [] (by decide) (by decide),
    (claim_C7.2.2.1 mW 1 2 "g" (by decide)).1,
    claim_C7.2.2.2 mW 1 2 "g1" "g2" (by decide) (by decide)⟩

/-- Harmonizer witness model: canonical record 1, migrated root 2 whose
donor-origin record 3 references application 4. -/
def tgtH : Model :=
  ⟨[(1, ⟨"IfcOwnerHistory", [("OwningUser", .null), ("OwningApplication", .null)]⟩),
    (2, ⟨"IfcCommunicationsAppliance",
         [("OwnerHistory", .ref 3), ("GlobalId", .str "g2")]⟩),
    (3, ⟨"IfcOwnerHistory",
         [("OwningUser", .null), ("OwningApplication", .ref 4)]⟩),
    (4, ⟨"IfcApplication", [("ApplicationFullName", .str "donorapp")]⟩)], 5⟩

theorem claim_C5_witness :
    (((harmonize_migrated_owner_history tgtH [2] (some 1)).1).byId 1).isSome
      = true :=
  claim_C5 tgtH [2] 1 (by decide) (by unfold metadataAvoids; decide)

/-- The model state right before the harmonizer removes record 3 in the
`tgtH` run: root 2 retargeted to record 1, everything still present. -/
def tgtHpre : Model :=
  ⟨[(1, ⟨"IfcOwnerHistory", [("OwningUser", .null), ("OwningApplication", .null)]⟩),
    (2, ⟨"IfcCommunicationsAppliance",
         [("OwnerHistory", .ref 1), ("GlobalId", .str "g2")]⟩),
    (3, ⟨"IfcOwnerHistory",
         [("OwningUser", .null), ("OwningApplication", .ref 4)]⟩),
    (4, ⟨"IfcApplication", [("ApplicationFullName", .str "donorapp")]⟩)], 5⟩

theorem claim_C6_witness :
    (RemovalEvent.mk 3 tgtHpre).pre.getInverse (RemovalEvent.mk 3 tgtHpre).handle
      = [] :=
  claim_C6.1 tgtH [2] (some 1) ⟨3, tgtHpre⟩ (by decide)

/-! ### The object-graph migrator (claims C3, C4)

Modelled from the spec (section 4.4): the migrator itself is
`ifcopenshell.util.schema.Migrator`, external library code.  `migrate` is
a recursive deep copy with an identity cache keyed by source handle; the
clone is registered in the cache before its attributes are migrated, which
breaks cycles; scalar attributes are copied by value.  Recursion is fuelled
to make it structural; every property proved below holds for every fuel. -/

/-- The identity cache: source handle to target handle. -/
abbrev Cache := List (Nat × Nat)

/-- Replace a clone's (initially empty) attribute list once the attribute
graph has been migrated. -/
def setEntityAttrs (m : Model) (h : Nat) (attrs : List (String × AttrVal)) : Model :=
  ⟨m.entities.map (fun p => if p.1 = h then (p.1, ⟨p.2.cls, attrs⟩) else p),
   m.nextId⟩

mutual

/-- Modelled from the spec: `Migrator.migrate(sourceEntity, targetModel)`.
Cache hit returns the cached clone unchanged; otherwise a blank clone is
created and registered, the attributes are migrated, and the clone is
filled in. -/
def migrateEnt (src : Model) (fuel h : Nat) (tgt : Model) (cache : Cache) :
    Option (Nat × Model × Cache) :=
  match fuel with
  | 0 => none
  | fuel + 1 =>
    match cache.lookup h with
    | some th => some (th, tgt, cache)
    | none =>
      match src.byId h with
      | none => none
      | some e =>
        let tid := tgt.nextId
        let tgt1 : Model := ⟨tgt.entities ++ [(tid, ⟨e.cls, []⟩)], tid + 1⟩
        let cache1 : Cache := (h, tid) :: cache
        match migrateAttrs src fuel e.attrs tgt1 cache1 with
        | none => none
        | some (attrs2, tgt2, cache2) =>
          some (tid, setEntityAttrs tgt2 tid attrs2, cache2)
termination_by (fuel, 0, 0)

/-- Modelled from the spec: migrate a reference list, in order. -/
def migrateList (src : Model) (fuel : Nat) (hs : List Nat) (tgt : Model)
    (cache : Cache) : Option (List Nat × Model × Cache) :=
  match hs with
  | [] => some ([], tgt, cache)
  | h :: rest =>
    match migrateEnt src fuel h tgt cache with
    | none => none
    | some (th, tgt2, cache2) =>
      match migrateList src fuel rest tgt2 cache2 with
      | none => none
      | some (ths, tgt3, cache3) => some (th :: ths, tgt3, cache3)
termination_by (fuel, 1, hs.length)

/-- Modelled from the spec: migrate one attribute value — references are
migrated recursively, scalars are copied by value. -/
def migrateVal (src : Model) (fuel : Nat) (v : AttrVal) (tgt : Model)
    (cache : Cache) : Option (AttrVal × Model × Cache) :=
  match v with
  | .ref h =>
    match migrateEnt src fuel h tgt cache with
    | none => none
    | some (th, tgt2, cache2) => some (.ref th, tgt2, cache2)
  | .refList hs =>
    match migrateList src fuel hs tgt cache with
    | none => none
    | some (ths, tgt2, cache2) => some (.refList ths, tgt2, cache2)
  | v => some (v, tgt, cache)
termination_by (fuel, 3, 0)

/-- Modelled from the spec: migrate an attribute list, in order. -/
def migrateAttrs (src : Model) (fuel : Nat) (attrs : List (String × AttrVal))
    (tgt : Model) (cache : Cache) :
    Option (List (String × AttrVal) × Model × Cache) :=
  match attrs with
  | [] => some ([], tgt, cache)
  | (n, v) :: rest =>
    match migrateVal src fuel v tgt cache with
    | none => none
    | some (v2, tgt2, cache2) =>
      match migrateAttrs src fuel rest tgt2 cache2 with
      | none => none
      | some (rest2, tgt3, cache3) => some ((n, v2) :: rest2, tgt3, cache3)
termination_by (fuel, 4, attrs.length)

end

/-- Cache entries survive `migrateEnt`. -/
def EntMono (src : Model) (fuel : Nat) : Prop :=
  ∀ (h : Nat) (tgt : Model) (cache : Cache) (r : Nat × Model × Cache),
    migrateEnt src fuel h tgt cache = some r →
    ∀ k v, cache.lookup k = some v → r.2.2.lookup k = some v

/-- Cache entries survive `migrateList`. -/
def ListMono (src : Model) (fuel : Nat) : Prop :=
  ∀ (hs : List Nat) (tgt : Model) (cache : Cache) (r : List Nat × Model × Cache),
    migrateList src fuel hs tgt cache = some r →
    ∀ k v, cache.lookup k = some v → r.2.2.lookup k = some v

/-- Cache entries survive `migrateVal`. -/
def ValMono (src : Model) (fuel : Nat) : Prop :=
  ∀ (v0 : AttrVal) (tgt : Model) (cache : Cache) (r : AttrVal × Model × Cache),
    migrateVal src fuel v0 tgt cache = some r →
    ∀ k v, cache.lookup k = some v → r.2.2.lookup k = some v

/-- Cache entries survive `migrateAttrs`. -/
def AttrsMono (src : Model) (fuel : Nat) : Prop :=
  ∀ (attrs : List (String × AttrVal)) (tgt : Model) (cache : Cache)
    (r : List (String × AttrVal) × Model × Cache),
    migrateAttrs src fuel attrs tgt cache = some r →
    ∀ k v, cache.lookup k = some v → r.2.2.lookup k = some v

theorem listMono_of {src : Model} {fuel : Nat} (hE : EntMono src fuel) :
    ListMono src fuel := by
  intro hs
  induction hs with
  | nil =>
    intro tgt cache r hm k v hk
    simp only [migrateList] at hm
    cases hm
    exact hk
  | cons a rest ih =>
    intro tgt cache r hm k v hk
    simp only [migrateList] at hm
    cases he : migrateEnt src fuel a tgt cache with
    | none =>
      simp only [he] at hm
      exact absurd hm (by simp)
    | some r1 =>
      obtain ⟨th, tgtm, cachem⟩ := r1
      simp only [he] at hm
      cases hr : migrateList src fuel rest tgtm cachem with
      | none =>
        simp only [hr] at hm
        exact absurd hm (by simp)
      | some r2 =>
        obtain ⟨ths, tgt3, cache3⟩ := r2
        simp only [hr] at hm
        cases hm
        exact ih tgtm cachem _ hr k v (hE a tgt cache _ he k v hk)

theorem valMono_of {src : Model} {fuel : Nat} (hE : EntMono src fuel)
    (hL : ListMono src fuel) : ValMono src fuel := by
  intro v0 tgt cache r hm k v hk
  cases v0 with
  | ref h =>
    simp only [migrateVal] at hm
    cases he : migrateEnt src fuel h tgt cache with
    | none =>
      simp only [he] at hm
      exact absurd hm (by simp)
    | some r1 =>
      obtain ⟨th, tgtm, cachem⟩ := r1
      simp only [he] at hm
      cases hm
      exact hE h tgt cache _ he k v hk
  | refList hs =>
    simp only [migrateVal] at hm
    cases he : migrateList src fuel hs tgt cache with
    | none =>
      simp only [he] at hm
      exact absurd hm (by simp)
    | some r1 =>
      obtain ⟨ths, tgtm, cachem⟩ := r1
      simp only [he] at hm
      cases hm
      exact hL hs tgt cache _ he k v hk
  | null =>
    simp only [migrateVal] at hm
    cases hm
    exact hk
  | str s =>
    simp only [migrateVal] at hm
    cases hm
    exact hk

theorem attrsMono_of {src : Model} {fuel : Nat} (hV : ValMono src fuel) :
    AttrsMono src fuel := by
  intro attrs
  induction attrs with
  | nil =>
    intro tgt cache r hm k v hk
    simp only [migrateAttrs] at hm
    cases hm
    exact hk
  | cons a rest ih =>
    obtain ⟨n, v0⟩ := a
    intro tgt cache r hm k v hk
    simp only [migrateAttrs] at hm
    cases he : migrateVal src fuel v0 tgt cache with
    | none =>
      simp only [he] at hm
      exact absurd hm (by simp)
    | some r1 =>
      obtain ⟨v2, tgtm, cachem⟩ := r1
      simp only [he] at hm
      cases hr : migrateAttrs src fuel rest tgtm cachem with
      | none =>
        simp only [hr] at hm
        exact absurd hm (by simp)
      | some r2 =>
        obtain ⟨rest2, tgt3, cache3⟩ := r2
        simp only [hr] at hm
        cases hm
        exact ih tgtm cachem _ hr k v (hV v0 tgt cache _ he k v hk)

theorem entMono_zero (src : Model) : EntMono src 0 := by
  intro h tgt cache r hm
  simp [migrateEnt] at hm

theorem entMono_succ {src : Model} {fuel : Nat} (hA : AttrsMono src fuel) :
    EntMono src (fuel + 1) := by
  intro h tgt cache r hm k v hk
  simp only [migrateEnt] at hm
  cases hc : cache.lookup h with
  | some th =>
    simp only [hc] at hm
    cases hm
    exact hk
  | none =>
    simp only [hc] at hm
    cases hb : src.byId h with
    | none =>
      simp only [hb] at hm
      exact absurd hm (by simp)
    | some e =>
      simp only [hb] at hm
      cases hat : migrateAttrs src fuel e.attrs
          ⟨tgt.entities ++ [(tgt.nextId, ⟨e.cls, []⟩)], tgt.nextId + 1⟩
          ((h, tgt.nextId) :: cache) with
      | none =>
        simp only [hat] at hm
        exact absurd hm (by simp)
      | some r2 =>
        obtain ⟨attrs2, tgt2, cache2⟩ := r2
        simp only [hat] at hm
        cases hm
        refine hA e.attrs _ _ _ hat k v ?_
        rw [List.lookup_cons]
        rw [show (k == h) = false from beq_eq_false_iff_ne.2
          (fun hkh => by rw [hkh, hc] at hk; cases hk)]
        exact hk

theorem migrateMono (src : Model) (fuel : Nat) :
    EntMono src fuel ∧ ListMono src fuel ∧ ValMono src fuel ∧ AttrsMono src fuel := by
  induction fuel with
  | zero =>
    have hE := entMono_zero src
    have hL := listMono_of hE
    have hV := valMono_of hE hL
    exact ⟨hE, hL, hV, attrsMono_of hV⟩
  | succ fuel ih =>
    have hE := entMono_succ ih.2.2.2
    have hL := listMono_of hE
    have hV := valMono_of hE hL
    exact ⟨hE, hL, hV, attrsMono_of hV⟩

/-- On a cache hit `migrateEnt` returns the cached clone and leaves the
target model and cache untouched. -/
theorem migrateEnt_hit (src : Model) (fuel h : Nat) (tgt : Model) (cache : Cache)
    (th : Nat) (hc : cache.lookup h = some th) :
    migrateEnt src (fuel + 1) h tgt cache = some (th, tgt, cache) := by
  simp only [migrateEnt]
  rw [hc]

/-- A successful migration registers the result in the cache. -/
theorem migrateEnt_caches (src : Model) (fuel h : Nat) (tgt : Model)
    (cache : Cache) (r : Nat × Model × Cache)
    (hm : migrateEnt src fuel h tgt cache = some r) :
    r.2.2.lookup h = some r.1 := by
  cases fuel with
  | zero => simp [migrateEnt] at hm
  | succ fuel =>
    simp only [migrateEnt] at hm
    cases hc : cache.lookup h with
    | some th =>
      simp only [hc] at hm
      cases hm
      exact hc
    | none =>
      simp only [hc] at hm
      cases hb : src.byId h with
      | none =>
        simp only [hb] at hm
        exact absurd hm (by simp)
      | some e =>
        simp only [hb] at hm
        cases hat : migrateAttrs src fuel e.attrs
            ⟨tgt.entities ++ [(tgt.nextId, ⟨e.cls, []⟩)], tgt.nextId + 1⟩
            ((h, tgt.nextId) :: cache) with
        | none =>
          simp only [hat] at hm
          exact absurd hm (by simp)
        | some r2 =>
          obtain ⟨attrs2, tgt2, cache2⟩ := r2
          simp only [hat] at hm
          cases hm
          refine (migrateMono src fuel).2.2.2 e.attrs _ _ _ hat h tgt.nextId ?_
          rw [List.lookup_cons]
          simp

/-- Identity-cache idempotence: a second `migrate` of the same source
entity into the same target model returns the identical clone and changes
nothing. -/
theorem migrate_idem (src : Model) (fuel fuel2 h : Nat) (tgt : Model)
    (cache : Cache) (r : Nat × Model × Cache)
    (hm : migrateEnt src fuel h tgt cache = some r) :
    migrateEnt src (fuel2 + 1) h r.2.1 r.2.2 = some r := by
  rw [migrateEnt_hit src fuel2 h r.2.1 r.2.2 r.1 (migrateEnt_caches _ _ _ _ _ _ hm)]

/-- Attribute lists without references migrate to themselves without
touching the model or the cache. -/
theorem migrateAttrs_noRefs (src : Model) (fuel : Nat)
    (attrs : List (String × AttrVal)) (tgt : Model) (cache : Cache)
    (hnr : ∀ p ∈ attrs, p.2.refs = []) :
    migrateAttrs src fuel attrs tgt cache = some (attrs, tgt, cache) := by
  induction attrs generalizing tgt cache with
  | nil => simp [migrateAttrs]
  | cons a rest ih =>
    obtain ⟨n, v⟩ := a
    have hv := hnr (n, v) (List.mem_cons_self _ _)
    have hrest : ∀ p ∈ rest, p.2.refs = [] :=
      fun p hp => hnr p (List.mem_cons_of_mem _ hp)
    simp only [migrateAttrs]
    cases v with
    | null =>
      simp only [migrateVal, ih tgt cache hrest]
    | str s =>
      simp only [migrateVal, ih tgt cache hrest]
    | ref h =>
      exact absurd hv (by simp [AttrVal.refs])
    | refList hs =>
      have hhs : hs = [] := by simpa [AttrVal.refs] using hv
      subst hhs
      simp only [migrateVal, migrateList, ih tgt cache hrest]

/-- Migrating a reference-free entity on a cache miss creates exactly one
clone — an exact copy appended under the next free handle — and registers
it in the cache. -/
theorem migrateEnt_leaf (src : Model) (fuel h : Nat) (tgt : Model) (cache : Cache)
    (e : Entity) (hc : cache.lookup h = none) (hb : src.byId h = some e)
    (hnr : ∀ p ∈ e.attrs, p.2.refs = [])
    (hwf : ∀ p ∈ tgt.entities, p.1 < tgt.nextId) :
    migrateEnt src (fuel + 1) h tgt cache =
      some (tgt.nextId, ⟨tgt.entities ++ [(tgt.nextId, e)], tgt.nextId + 1⟩,
            (h, tgt.nextId) :: cache) := by
  simp only [migrateEnt]
  simp only [hc, hb]
  simp only [migrateAttrs_noRefs src fuel e.attrs _ _ hnr]
  have hset : setEntityAttrs
      ⟨tgt.entities ++ [(tgt.nextId, ⟨e.cls, []⟩)], tgt.nextId + 1⟩
      tgt.nextId e.attrs
      = ⟨tgt.entities ++ [(tgt.nextId, e)], tgt.nextId + 1⟩ := by
    unfold setEntityAttrs
    congr 1
    rw [List.map_append]
    congr 1
    · have hall : List.map (fun p => if p.1 = tgt.nextId
          then (p.1, (⟨p.2.cls, e.attrs⟩ : Entity)) else p) tgt.entities
          = List.map id tgt.entities := by
        apply List.map_congr_left
        intro p hp
        simp only [id]
        rw [if_neg (Nat.ne_of_lt (hwf p hp))]
      rw [hall, List.map_id]
    · simp
  rw [hset]

/-- The owner history captured by `copy_inverse_relations` before its loop:
`first_owner_history(target_model) or target_antenna.OwnerHistory`. -/
def copyOwnerHistory (tgt : Model) (target_antenna : Nat) : AttrVal :=
  match first_owner_history tgt with
  | some ohh => .ref ohh
  | none =>
    match tgt.byId target_antenna with
    | some e => e.getAttr "OwnerHistory"
    | none => .null

/-- State threaded through the rewiring loop: target model, migrator cache,
the branch-local `migrated_type_cache`, and the GUID counter. -/
structure CopySt where
  tgt : Model
  cache : Cache
  typeCache : List (Nat × Nat)
  g : Nat
  deriving Repr, DecidableEq

/-- The attribute list of a re-created relationship entity. -/
def mkRelAttrs (guid : String) (oh name desc : AttrVal) (relatedKey : String)
    (related : List Nat) (relatingKey : String) (relating : Nat) :
    List (String × AttrVal) :=
  [("GlobalId", .str guid), ("OwnerHistory", oh), ("Name", name),
   ("Description", desc), (relatedKey, .refList related),
   (relatingKey, .ref relating)]

/-- The related-objects rebuild of the material branch: the donor entity is
replaced by its clone, sibling type objects are migrated, anything else is
skipped. -/
def relatedObjectsFor (src : Model) (fuel sa ta : Nat) :
    List Nat → Model → Cache → Option (List Nat × Model × Cache)
  | [], tgt, cache => some ([], tgt, cache)
  | h :: rest, tgt, cache =>
    if h = sa then
      match relatedObjectsFor src fuel sa ta rest tgt cache with
      | none => none
      | some (hs2, tgt2, cache2) => some (ta :: hs2, tgt2, cache2)
    else
      match src.byId h with
      | none => none
      | some e =>
        if e.isA "IfcTypeObject" then
          match migrateEnt src fuel h tgt cache with
          | none => none
          | some (th, tgt2, cache2) =>
            match relatedObjectsFor src fuel sa ta rest tgt2 cache2 with
            | none => none
            | some (hs2, tgt3, cache3) => some (th :: hs2, tgt3, cache3)
        else relatedObjectsFor src fuel sa ta rest tgt cache

/-- One iteration of the `copy_inverse_relations` loop, dispatching on the
relation class; unrelated relation classes are skipped.  A failing
`migrate` (or a malformed relation) aborts, as the exception would. -/
def copyRelation (src : Model) (fuel sa ta : Nat) (oh : AttrVal)
    (guids : Nat → String) (st : CopySt) (rel : Entity) : Option CopySt :=
  if rel.isA "IfcRelDefinesByType" then
    match rel.getAttr "RelatingType" with
    | .ref sth =>
      match st.typeCache.lookup sth with
      | some tth =>
        some ⟨(st.tgt.createEntity ⟨"IfcRelDefinesByType",
          mkRelAttrs (guids st.g) oh (rel.getAttr "Name") (rel.getAttr "Description")
            "RelatedObjects" [ta] "RelatingType" tth⟩).1,
          st.cache, st.typeCache, st.g + 1⟩
      | none =>
        match migrateEnt src fuel sth st.tgt st.cache with
        | none => none
        | some (tth, tgt2, cache2) =>
          some ⟨(tgt2.createEntity ⟨"IfcRelDefinesByType",
            mkRelAttrs (guids st.g) oh (rel.getAttr "Name") (rel.getAttr "Description")
              "RelatedObjects" [ta] "RelatingType" tth⟩).1,
            cache2, (sth, tth) :: st.typeCache, st.g + 1⟩
    | _ => none
  else if rel.isA "IfcRelDefinesByProperties" then
    match rel.getAttr "RelatingPropertyDefinition" with
    | .ref sph =>
      match migrateEnt src fuel sph st.tgt st.cache with
      | none => none
      | some (tph, tgt2, cache2) =>
        some ⟨(tgt2.createEntity ⟨"IfcRelDefinesByProperties",
          mkRelAttrs (guids st.g) oh (rel.getAttr "Name") (rel.getAttr "Description")
            "RelatedObjects" [ta] "RelatingPropertyDefinition" tph⟩).1,
          cache2, st.typeCache, st.g + 1⟩
    | _ => none
  else if rel.isA "IfcRelAssociatesMaterial" then
    match rel.getAttr "RelatingMaterial" with
    | .ref smh =>
      match migrateEnt src fuel smh st.tgt st.cache with
      | none => none
      | some (tmh, tgt2, cache2) =>
        match rel.getAttr "RelatedObjects" with
        | .refList hs =>
          match relatedObjectsFor src fuel sa ta hs tgt2 cache2 with
          | none => none
          | some (ros, tgt3, cache3) =>
            if ros = [] then some ⟨tgt3, cache3, st.typeCache, st.g⟩
            else some ⟨(tgt3.createEntity ⟨"IfcRelAssociatesMaterial",
              mkRelAttrs (guids st.g) oh (rel.getAttr "Name")
                (rel.getAttr "Description")
                "RelatedObjects" ros "RelatingMaterial" tmh⟩).1,
              cache3, st.typeCache, st.g + 1⟩
        | _ => none
    | _ => none
  else some st

/-- The `for relation in source_model.get_inverse(source_antenna)` loop. -/
def copyRelations (src : Model) (fuel sa ta : Nat) (oh : AttrVal)
    (guids : Nat → String) : List Entity → CopySt → Option CopySt
  | [], st => some st
  | rel :: rest, st =>
    match copyRelation src fuel sa ta oh guids st rel with
    | none => none
    | some st2 => copyRelations src fuel sa ta oh guids rest st2

/-- `copy_inverse_relations`. -/
def copy_inverse_relations (src tgt : Model) (fuel sa ta : Nat)
    (guids : Nat → String) (cache : Cache) (g0 : Nat) : Option CopySt :=
  copyRelations src fuel sa ta (copyOwnerHistory tgt ta) guids
    ((src.getInverse sa).map Prod.snd) ⟨tgt, cache, [], g0⟩

theorem relatedObjectsFor_self (src : Model) (fuel sa ta : Nat) (tgt : Model)
    (cache : Cache) :
    relatedObjectsFor src fuel sa ta [sa] tgt cache = some ([ta], tgt, cache) := by
  simp [relatedObjectsFor]

theorem copyRelation_material (src : Model) (fuel sa ta : Nat) (oh : AttrVal)
    (guids : Nat → String) (st : CopySt) (rel : Entity) (mh tmh : Nat)
    (tgt2 : Model) (cache2 : Cache)
    (hcls : rel.cls = "IfcRelAssociatesMaterial")
    (hmat : rel.getAttr "RelatingMaterial" = .ref mh)
    (hro : rel.getAttr "RelatedObjects" = .refList [sa])
    (hmig : migrateEnt src fuel mh st.tgt st.cache = some (tmh, tgt2, cache2)) :
    copyRelation src fuel sa ta oh guids st rel =
      some ⟨(tgt2.createEntity ⟨"IfcRelAssociatesMaterial",
        mkRelAttrs (guids st.g) oh (rel.getAttr "Name") (rel.getAttr "Description")
          "RelatedObjects" [ta] "RelatingMaterial" tmh⟩).1,
        cache2, st.typeCache, st.g + 1⟩ := by
  have h1 : rel.isA "IfcRelDefinesByType" = false := by
    unfold Entity.isA
    rw [hcls]
    rfl
  have h2 : rel.isA "IfcRelDefinesByProperties" = false := by
    unfold Entity.isA
    rw [hcls]
    rfl
  have h3 : rel.isA "IfcRelAssociatesMaterial" = true := by
    unfold Entity.isA
    rw [hcls]
    rfl
  simp only [copyRelation, h1, h2, h3, Bool.false_eq_true, if_false, if_true,
    hmat, hmig, hro, relatedObjectsFor_self]
  rw [if_neg (by simp : ¬ ([ta] : List Nat) = [])]

/-- C3 — confirmed.  First conjunct: identity-cache idempotence — a second
`migrate` of the same source entity into the same target model returns the
identical clone and leaves the model and the cache unchanged.  Second
conjunct: a donor with two inbound material-association relations sharing
one (reference-free) material record yields exactly one migrated material
clone — the target model grows by precisely the clone and the two
re-created relations, both of which reference the single clone handle. -/
theorem claim_C3 :
    (∀ (src : Model) (fuel fuel2 h : Nat) (tgt : Model) (cache : Cache)
        (r : Nat × Model × Cache),
        migrateEnt src fuel h tgt cache = some r →
        migrateEnt src (fuel2 + 1) h r.2.1 r.2.2 = some r)
  ∧ (∀ (src tgt : Model) (fuel sa ta mh : Nat) (r1 r2 me : Entity)
        (guids : Nat → String) (cache : Cache) (g0 : Nat),
        (src.getInverse sa).map Prod.snd = [r1, r2] →
        r1.cls = "IfcRelAssociatesMaterial" →
        r2.cls = "IfcRelAssociatesMaterial" →
        r1.getAttr "RelatingMaterial" = .ref mh →
        r2.getAttr "RelatingMaterial" = .ref mh →
        r1.getAttr "RelatedObjects" = .refList [sa] →
        r2.getAttr "RelatedObjects" = .refList [sa] →
        cache.lookup mh = none →
        src.byId mh = some me →
        (∀ p ∈ me.attrs, p.2.refs = []) →
        (∀ p ∈ tgt.entities, p.1 < tgt.nextId) →
        copy_inverse_relations src tgt (fuel + 1) sa ta guids cache g0 =
          some ⟨⟨tgt.entities ++
              [(tgt.nextId, me),
               (tgt.nextId + 1, ⟨"IfcRelAssociatesMaterial",
                  mkRelAttrs (guids g0) (copyOwnerHistory tgt ta)
                    (r1.getAttr "Name") (r1.getAttr "Description")
                    "RelatedObjects" [ta] "RelatingMaterial" tgt.nextId⟩),
               (tgt.nextId + 2, ⟨"IfcRelAssociatesMaterial",
                  mkRelAttrs (guids (g0 + 1)) (copyOwnerHistory tgt ta)
                    (r2.getAttr "Name") (r2.getAttr "Description")
                    "RelatedObjects" [ta] "RelatingMaterial" tgt.nextId⟩)],
             tgt.nextId + 3⟩,
            (mh, tgt.nextId) :: cache, [], g0 + 2⟩) := by
  constructor
  · intro src fuel fuel2 h tgt cache r hm
    exact migrate_idem src fuel fuel2 h tgt cache r hm
  · intro src tgt fuel sa ta mh r1 r2 me guids cache g0 hinv h1c h2c hm1 hm2
      hro1 hro2 hcache hsrc hleaf hwf
    have hmig1 := migrateEnt_leaf src fuel mh tgt cache me hcache hsrc hleaf hwf
    have hhit : ((mh, tgt.nextId) :: cache).lookup mh = some tgt.nextId := by
      rw [List.lookup_cons]
      simp
    have step2 : copyRelations src (fuel + 1) sa ta (copyOwnerHistory tgt ta) guids [r2]
        ⟨((⟨tgt.entities ++ [(tgt.nextId, me)], tgt.nextId + 1⟩ : Model).createEntity
            ⟨"IfcRelAssociatesMaterial",
              mkRelAttrs (guids g0) (copyOwnerHistory tgt ta) (r1.getAttr "Name")
                (r1.getAttr "Description") "RelatedObjects" [ta]
                "RelatingMaterial" tgt.nextId⟩).1,
          (mh, tgt.nextId) :: cache, [], g0 + 1⟩ =
        some ⟨(((⟨tgt.entities ++ [(tgt.nextId, me)], tgt.nextId + 1⟩ : Model).createEntity
            ⟨"IfcRelAssociatesMaterial",
              mkRelAttrs (guids g0) (copyOwnerHistory tgt ta) (r1.getAttr "Name")
                (r1.getAttr "Description") "RelatedObjects" [ta]
                "RelatingMaterial" tgt.nextId⟩).1.createEntity
            ⟨"IfcRelAssociatesMaterial",
              mkRelAttrs (guids (g0 + 1)) (copyOwnerHistory tgt ta) (r2.getAttr "Name")
                (r2.getAttr "Description") "RelatedObjects" [ta]
                "RelatingMaterial" tgt.nextId⟩).1,
          (mh, tgt.nextId) :: cache, [], g0 + 2⟩ := by
      simp only [copyRelations]
      rw [copyRelation_material src (fuel + 1) sa ta (copyOwnerHistory tgt ta) guids
        _ r2 mh tgt.nextId _ _ h2c hm2 hro2
        (migrateEnt_hit src fuel mh
          ((⟨tgt.entities ++ [(tgt.nextId, me)], tgt.nextId + 1⟩ : Model).createEntity
            ⟨"IfcRelAssociatesMaterial",
              mkRelAttrs (guids g0) (copyOwnerHistory tgt ta) (r1.getAttr "Name")
                (r1.getAttr "Description") "RelatedObjects" [ta]
                "RelatingMaterial" tgt.nextId⟩).1
          ((mh, tgt.nextId) :: cache) tgt.nextId hhit)]
    have step1 : copyRelations src (fuel + 1) sa ta (copyOwnerHistory tgt ta) guids
        [r1, r2] ⟨tgt, cache, [], g0⟩ =
        some ⟨(((⟨tgt.entities ++ [(tgt.nextId, me)], tgt.nextId + 1⟩ : Model).createEntity
            ⟨"IfcRelAssociatesMaterial",
              mkRelAttrs (guids g0) (copyOwnerHistory tgt ta) (r1.getAttr "Name")
                (r1.getAttr "Description") "RelatedObjects" [ta]
                "RelatingMaterial" tgt.nextId⟩).1.createEntity
            ⟨"IfcRelAssociatesMaterial",
              mkRelAttrs (guids (g0 + 1)) (copyOwnerHistory tgt ta) (r2.getAttr "Name")
                (r2.getAttr "Description") "RelatedObjects" [ta]
                "RelatingMaterial" tgt.nextId⟩).1,
          (mh, tgt.nextId) :: cache, [], g0 + 2⟩ := by
      simp only [copyRelations]
      rw [copyRelation_material src (fuel + 1) sa ta (copyOwnerHistory tgt ta) guids
        ⟨tgt, cache, [], g0⟩ r1 mh tgt.nextId _ _ h1c hm1 hro1 hmig1]
      exact step2
    unfold copy_inverse_relations
    rw [hinv, step1]
    simp only [Model.createEntity, Option.some.injEq, CopySt.mk.injEq, Model.mk.injEq]
    refine ⟨⟨?_, trivial⟩, trivial, trivial, trivial⟩
    simp [List.append_assoc, Nat.add_assoc]

/-- Concrete donor model for the C3 witness: an antenna (handle 1), a
material record (handle 2), and two `IfcRelAssociatesMaterial` relations
(handles 3 and 4), both associating the material with the antenna. -/
def srcC3 : Model :=
  ⟨[(1, ⟨"IfcCommunicationsAppliance", []⟩),
    (2, ⟨"IfcMaterial", [("Name", .str "Steel")]⟩),
    (3, ⟨"IfcRelAssociatesMaterial",
      [("GlobalId", .str "ga"), ("RelatedObjects", .refList [1]),
       ("RelatingMaterial", .ref 2)]⟩),
    (4, ⟨"IfcRelAssociatesMaterial",
      [("GlobalId", .str "gb"), ("RelatedObjects", .refList [1]),
       ("RelatingMaterial", .ref 2)]⟩)], 5⟩

/-- Concrete target model for the C3 witness: only the migrated antenna
clone, at handle 10. -/
def tgtC3 : Model := ⟨[(10, ⟨"IfcCommunicationsAppliance", []⟩)], 11⟩

theorem claim_C3_witness :
    copy_inverse_relations srcC3 tgtC3 6 1 10 (fun k => toString k) [] 0 =
      some ⟨⟨[(10, ⟨"IfcCommunicationsAppliance", []⟩),
          (11, ⟨"IfcMaterial", [("Name", .str "Steel")]⟩),
          (12, ⟨"IfcRelAssociatesMaterial",
             [("GlobalId", .str "0"), ("OwnerHistory", .null), ("Name", .null),
              ("Description", .null), ("RelatedObjects", .refList [10]),
              ("RelatingMaterial", .ref 11)]⟩),
          (13, ⟨"IfcRelAssociatesMaterial",
             [("GlobalId", .str "1"), ("OwnerHistory", .null), ("Name", .null),
              ("Description", .null), ("RelatedObjects", .refList [10]),
              ("RelatingMaterial", .ref 11)]⟩)], 14⟩,
        [(2, 11)], [], 2⟩ :=
  claim_C3.2 srcC3 tgtC3 5 1 10 2
    ⟨"IfcRelAssociatesMaterial",
      [("GlobalId", .str "ga"), ("RelatedObjects", .refList [1]),
       ("RelatingMaterial", .ref 2)]⟩
    ⟨"IfcRelAssociatesMaterial",
      [("GlobalId", .str "gb"), ("RelatedObjects", .refList [1]),
       ("RelatingMaterial", .ref 2)]⟩
    ⟨"IfcMaterial", [("Name", .str "Steel")]⟩
    (fun k => toString k) [] 0
    (by decide) rfl rfl rfl rfl rfl rfl rfl rfl (by decide) (by decide)
/-! ### `refresh_migrated_root_guids` (claim C4) -/

/-- A model attribute write keeps the handle column unchanged. -/
theorem Model.keys_setAttr (m : Model) (h : Nat) (n : String) (v : AttrVal) :
    (m.setAttr h n v).entities.map Prod.fst = m.entities.map Prod.fst := by
  unfold Model.setAttr
  simp only [List.map_map]
  refine List.map_congr_left ?_
  intro p _
  by_cases hp : p.1 = h <;> simp [hp, Entity.setAttr]

/-- Under duplicate-free handles, membership determines the lookup. -/
theorem lookup_unique {α β : Type} [BEq α] [LawfulBEq α] {l : List (α × β)}
    (hnd : (l.map Prod.fst).Nodup) {k : α} {v : β} (hm : (k, v) ∈ l) :
    l.lookup k = some v := by
  induction l with
  | nil => cases hm
  | cons a tl ih =>
    obtain ⟨k2, v2⟩ := a
    rw [List.lookup_cons]
    rcases List.mem_cons.1 hm with heq | hmem
    · injection heq with h1 h2
      subst h1
      subst h2
      simp
    · have hnd2 : k2 ∉ tl.map Prod.fst ∧ (tl.map Prod.fst).Nodup :=
        List.nodup_cons.1 (by simpa using hnd)
      have hne : k ≠ k2 := by
        rintro rfl
        exact hnd2.1 (List.mem_map.2 ⟨(k, v), hmem, rfl⟩)
      rw [show (k == k2) = false from beq_eq_false_iff_ne.2 hne]
      exact ih hnd2.2 hmem

/-- Overwriting the same attribute twice keeps only the last value. -/
theorem Entity.setAttr_setAttr (e : Entity) (n : String) (v w : AttrVal) :
    (e.setAttr n v).setAttr n w = e.setAttr n w := by
  unfold Entity.setAttr
  simp [List.filter_cons, List.filter_filter]

/-- Modelled from the spec: `ifcopenshell.guid.new()` generates globally
fresh identifiers; it is modelled as reading successive values of a GUID
stream `guids` at a running counter.  This is the body of the refresh loop:
for each manifest value, if the target entity exists and is an `IfcRoot`,
its `GlobalId` is overwritten with the next fresh GUID. -/
def refreshGuids (guids : Nat → String) : List Nat → Model → Nat → Model × Nat
  | [], m, g => (m, g)
  | tid :: rest, m, g =>
    match m.byId tid with
    | some e =>
      if e.isA "IfcRoot" then
        refreshGuids guids rest (m.setAttr tid "GlobalId" (.str (guids g))) (g + 1)
      else refreshGuids guids rest m g
    | none => refreshGuids guids rest m g

/-- `refresh_migrated_root_guids(target_model, migrator)`: iterate the
values of the migrator's identity manifest (`migrated_ids.values()`,
modelled as the list `vals`) and refresh the `GlobalId` of every root
entity among them. -/
def refresh_migrated_root_guids (guids : Nat → String) (tgt : Model)
    (vals : List Nat) (g0 : Nat) : Model × Nat :=
  refreshGuids guids vals tgt g0

theorem refreshGuids_spec (guids : Nat → String) (hinj : Function.Injective guids) :
    ∀ (vals : List Nat) (m : Model) (g : Nat),
    vals.Nodup →
    (m.entities.map Prod.fst).Nodup →
    (∀ k, g ≤ k → ∀ p ∈ m.entities, p.2.getAttr "GlobalId" ≠ .str (guids k)) →
    ((refreshGuids guids vals m g).1.entities.map Prod.fst = m.entities.map Prod.fst)
  ∧ g ≤ (refreshGuids guids vals m g).2
  ∧ (∀ h, h ∉ vals → (refreshGuids guids vals m g).1.byId h = m.byId h)
  ∧ (∀ h, h ∈ vals → ∀ e, m.byId h = some e →
       (e.isA "IfcRoot" = false → (refreshGuids guids vals m g).1.byId h = some e)
     ∧ (e.isA "IfcRoot" = true → ∃ k, g ≤ k ∧ k < (refreshGuids guids vals m g).2 ∧
          (refreshGuids guids vals m g).1.byId h =
            some (e.setAttr "GlobalId" (.str (guids k)))))
  ∧ (∀ p, p ∈ (refreshGuids guids vals m g).1.entities →
       p ∈ m.entities ∨ ∃ q, q ∈ m.entities ∧ p.1 = q.1 ∧ ∃ k, g ≤ k ∧
         p.2 = q.2.setAttr "GlobalId" (.str (guids k)))
  ∧ (∀ p, p ∈ (refreshGuids guids vals m g).1.entities →
       ∀ q, q ∈ (refreshGuids guids vals m g).1.entities →
       ∀ k, g ≤ k → p.2.getAttr "GlobalId" = .str (guids k) →
         q.2.getAttr "GlobalId" = .str (guids k) → p = q) := by
  intro vals
  induction vals with
  | nil =>
    intro m g _ hnd hA
    exact ⟨rfl, le_refl g, fun h _ => rfl, fun h hh => absurd hh (List.not_mem_nil h),
      fun p hp => Or.inl hp, fun p hp q hq k hk hpk _ => absurd hpk (hA k hk p hp)⟩
  | cons tid rest ih =>
    intro m g hnod hnd hA
    have htid : tid ∉ rest := (List.nodup_cons.1 hnod).1
    have hrest : rest.Nodup := (List.nodup_cons.1 hnod).2
    cases hm : m.byId tid with
    | none =>
      have hstep : refreshGuids guids (tid :: rest) m g = refreshGuids guids rest m g := by
        simp [refreshGuids, hm]
      rw [hstep]
      obtain ⟨K1, K2, K3, K4, K5, K6⟩ := ih m g hrest hnd hA
      refine ⟨K1, K2, fun h hh => K3 h (fun hm2 => hh (List.mem_cons_of_mem _ hm2)),
        fun h hh e he => ?_, K5, K6⟩
      rcases List.mem_cons.1 hh with rfl | hh2
      · rw [hm] at he
        cases he
      · exact K4 h hh2 e he
    | some e =>
      cases hroot : e.isA "IfcRoot" with
      | false =>
        have hstep : refreshGuids guids (tid :: rest) m g = refreshGuids guids rest m g := by
          simp [refreshGuids, hm, hroot]
        rw [hstep]
        obtain ⟨K1, K2, K3, K4, K5, K6⟩ := ih m g hrest hnd hA
        refine ⟨K1, K2, fun h hh => K3 h (fun hm2 => hh (List.mem_cons_of_mem _ hm2)),
          fun h hh e2 he => ?_, K5, K6⟩
        rcases List.mem_cons.1 hh with rfl | hh2
        · rw [hm] at he
          injection he with he2
          subst he2
          refine ⟨fun _ => ?_, fun htrue => ?_⟩
          · rw [K3 h htid, hm]
          · rw [hroot] at htrue
            cases htrue
        · exact K4 h hh2 e2 he
      | true =>
        have hstep : refreshGuids guids (tid :: rest) m g =
            refreshGuids guids rest (m.setAttr tid "GlobalId" (.str (guids g))) (g + 1) := by
          simp [refreshGuids, hm, hroot]
        rw [hstep]
        have hkeys1 : (m.setAttr tid "GlobalId" (.str (guids g))).entities.map Prod.fst
            = m.entities.map Prod.fst := Model.keys_setAttr m tid _ _
        have hnd1 : ((m.setAttr tid "GlobalId"
            (.str (guids g))).entities.map Prod.fst).Nodup := by
          rw [hkeys1]
          exact hnd
        have hA1 : ∀ k, g + 1 ≤ k →
            ∀ p ∈ (m.setAttr tid "GlobalId" (.str (guids g))).entities,
            p.2.getAttr "GlobalId" ≠ .str (guids k) := by
          intro k hk p hp
          simp only [Model.setAttr] at hp
          obtain ⟨q, hq, hfq⟩ := List.mem_map.1 hp
          by_cases hq1 : q.1 = tid
          · rw [if_pos hq1] at hfq
            subst hfq
            rw [Entity.getAttr_setAttr_eq]
            intro hcon
            injection hcon with hcon2
            have := hinj hcon2
            omega
          · rw [if_neg hq1] at hfq
            subst hfq
            exact hA k (by omega) q hq
        obtain ⟨K1, K2, K3, K4, K5, K6⟩ :=
          ih (m.setAttr tid "GlobalId" (.str (guids g))) (g + 1) hrest hnd1 hA1
        have hM1tid : (m.setAttr tid "GlobalId" (.str (guids g))).byId tid =
            some (e.setAttr "GlobalId" (.str (guids g))) := by
          rw [Model.byId_setAttr, if_pos rfl, hm]
          rfl
        have hM1ne : ∀ h, h ≠ tid →
            (m.setAttr tid "GlobalId" (.str (guids g))).byId h = m.byId h := by
          intro h hne
          rw [Model.byId_setAttr, if_neg hne]
        have honly : ∀ x, x ∈ (refreshGuids guids rest
              (m.setAttr tid "GlobalId" (.str (guids g))) (g + 1)).1.entities →
            x.2.getAttr "GlobalId" = .str (guids g) →
            x = (tid, e.setAttr "GlobalId" (.str (guids g))) := by
          intro x hx hguid
          rcases K5 x hx with hxm1 | ⟨q0, hq0, hx1, k2, hk2, hx2⟩
          · simp only [Model.setAttr] at hxm1
            obtain ⟨y, hy, hfy⟩ := List.mem_map.1 hxm1
            obtain ⟨y1, y2⟩ := y
            by_cases hy1 : y1 = tid
            · subst hy1
              rw [if_pos rfl] at hfy
              have hlk : m.byId y1 = some y2 := lookup_unique hnd hy
              rw [hm] at hlk
              injection hlk with hlk2
              subst hlk2
              exact hfy.symm
            · rw [if_neg hy1] at hfy
              subst hfy
              exact absurd hguid (hA g (le_refl g) (y1, y2) hy)
          · rw [hx2, Entity.getAttr_setAttr_eq] at hguid
            injection hguid with hguid2
            have := hinj hguid2
            omega
        refine ⟨K1.trans hkeys1, le_trans (Nat.le_succ g) K2, ?_, ?_, ?_, ?_⟩
        · intro h hh
          have hne : h ≠ tid := fun hcon => hh (hcon ▸ List.mem_cons_self tid rest)
          rw [K3 h (fun hm2 => hh (List.mem_cons_of_mem _ hm2)), hM1ne h hne]
        · intro h hh e2 he
          rcases List.mem_cons.1 hh with rfl | hh2
          · rw [hm] at he
            injection he with he2
            subst he2
            refine ⟨fun hfalse => ?_, fun _ => ⟨g, le_refl g, by omega, ?_⟩⟩
            · rw [hroot] at hfalse
              cases hfalse
            · rw [K3 h htid, hM1tid]
          · have hne : h ≠ tid := fun hcon => htid (hcon ▸ hh2)
            have he1 : (m.setAttr tid "GlobalId" (.str (guids g))).byId h = some e2 := by
              rw [hM1ne h hne]
              exact he
            obtain ⟨B1, B2⟩ := K4 h hh2 e2 he1
            exact ⟨B1, fun htrue => by
              obtain ⟨k2, hk1, hk2, hk3⟩ := B2 htrue
              exact ⟨k2, by omega, hk2, hk3⟩⟩
        · intro p hp
          rcases K5 p hp with hpm1 | ⟨q, hq, hpq1, k2, hk2, hpq2⟩
          · simp only [Model.setAttr] at hpm1
            obtain ⟨y, hy, hfy⟩ := List.mem_map.1 hpm1
            by_cases hy1 : y.1 = tid
            · rw [if_pos hy1] at hfy
              exact Or.inr ⟨y, hy, by rw [← hfy], g, le_refl g, by rw [← hfy]⟩
            · rw [if_neg hy1] at hfy
              subst hfy
              exact Or.inl hy
          · simp only [Model.setAttr] at hq
            obtain ⟨y, hy, hfy⟩ := List.mem_map.1 hq
            by_cases hy1 : y.1 = tid
            · rw [if_pos hy1] at hfy
              refine Or.inr ⟨y, hy, by rw [hpq1, ← hfy], k2, by omega, ?_⟩
              rw [hpq2, ← hfy, Entity.setAttr_setAttr]
            · rw [if_neg hy1] at hfy
              subst hfy
              exact Or.inr ⟨y, hy, hpq1, k2, by omega, hpq2⟩
        · intro p hp q hq k hk hpk hqk
          rcases Nat.lt_or_ge k (g + 1) with hlt | hge
          · have hkg : k = g := by omega
            subst hkg
            rw [honly p hp hpk, honly q hq hqk]
          · exact K6 p hp q hq k hge hpk hqk

/-- C4 — after the migration completes and the root-identifier refresh runs,
every manifest entity that is a root-class entity has a freshly generated
GlobalId overwriting the copied one; the new identifier occurs nowhere in
the source model and collides with no other entity of the refreshed target
model (pre-existing or migrated). -/
theorem claim_C4 :
    ∀ (src tgt : Model) (vals : List Nat) (guids : Nat → String) (g0 : Nat),
    Function.Injective guids →
    vals.Nodup →
    (tgt.entities.map Prod.fst).Nodup →
    (∀ k, ∀ p ∈ src.entities, p.2.getAttr "GlobalId" ≠ .str (guids k)) →
    (∀ k, ∀ p ∈ tgt.entities, p.2.getAttr "GlobalId" ≠ .str (guids k)) →
    ∀ h, h ∈ vals → ∀ e, tgt.byId h = some e → e.isA "IfcRoot" = true →
    ∃ k, g0 ≤ k ∧
      (refresh_migrated_root_guids guids tgt vals g0).1.byId h =
        some (e.setAttr "GlobalId" (.str (guids k))) ∧
      (e.setAttr "GlobalId" (.str (guids k))).getAttr "GlobalId" = .str (guids k) ∧
      (∀ p ∈ src.entities, p.2.getAttr "GlobalId" ≠ .str (guids k)) ∧
      (∀ h2 e2, h2 ≠ h →
        (refresh_migrated_root_guids guids tgt vals g0).1.byId h2 = some e2 →
        e2.getAttr "GlobalId" ≠ .str (guids k)) := by
  intro src tgt vals guids g0 hinj hvals hnd hfs hft h hh e he hroot
  obtain ⟨K1, K2, K3, K4, K5, K6⟩ :=
    refreshGuids_spec guids hinj vals tgt g0 hvals hnd (fun k _ => hft k)
  obtain ⟨k, hk1, hk2, hk3⟩ := (K4 h hh e he).2 hroot
  refine ⟨k, hk1, hk3, Entity.getAttr_setAttr_eq _ _ _, hfs k, ?_⟩
  intro h2 e2 hne hbyid hcon
  have hpmem : (h, e.setAttr "GlobalId" (.str (guids k))) ∈
      (refresh_migrated_root_guids guids tgt vals g0).1.entities := lookup_mem hk3
  have hqmem : (h2, e2) ∈
      (refresh_migrated_root_guids guids tgt vals g0).1.entities := lookup_mem hbyid
  have heq := K6 _ hpmem _ hqmem k hk1 (Entity.getAttr_setAttr_eq _ _ _) hcon
  exact hne (congrArg Prod.fst heq).symm

/-- GUID stream for the C4 witness: the k-th GUID is a run of k+1 letters.
It is injective and none of its values occurs in the witness models. -/
def guidsW : Nat → String := fun k => String.mk (List.replicate (k + 1) 'g')

theorem guidsW_fresh_str (k : Nat) : AttrVal.str "" ≠ .str (guidsW k) := by
  intro hcon
  injection hcon with h2
  have h3 := congrArg String.data h2
  simp [guidsW] at h3

theorem guidsW_fresh_null (k : Nat) : AttrVal.null ≠ .str (guidsW k) := by
  intro hcon
  cases hcon

/-- Donor model for the C4 witness: one root antenna with an empty GlobalId. -/
def srcC4 : Model :=
  ⟨[(1, ⟨"IfcCommunicationsAppliance", [("GlobalId", .str "")]⟩)], 2⟩

/-- Target model for the C4 witness: the migrated root antenna clone (handle
10) and a migrated non-root material record (handle 11). -/
def tgtC4 : Model :=
  ⟨[(10, ⟨"IfcCommunicationsAppliance", [("GlobalId", .str "")]⟩),
    (11, ⟨"IfcMaterial", []⟩)], 12⟩

theorem claim_C4_witness :
    ∃ k, 0 ≤ k ∧
      (refresh_migrated_root_guids guidsW tgtC4 [10, 11] 0).1.byId 10 =
        some ((⟨"IfcCommunicationsAppliance", [("GlobalId", .str "")]⟩ : Entity).setAttr
          "GlobalId" (.str (guidsW k))) ∧
      (((⟨"IfcCommunicationsAppliance", [("GlobalId", .str "")]⟩ : Entity).setAttr
          "GlobalId" (.str (guidsW k))).getAttr "GlobalId" = .str (guidsW k)) ∧
      (∀ p ∈ srcC4.entities, p.2.getAttr "GlobalId" ≠ .str (guidsW k)) ∧
      (∀ h2 e2, h2 ≠ 10 →
        (refresh_migrated_root_guids guidsW tgtC4 [10, 11] 0).1.byId h2 = some e2 →
        e2.getAttr "GlobalId" ≠ .str (guidsW k)) :=
  claim_C4 srcC4 tgtC4 [10, 11] guidsW 0
    (by
      intro a b hab
      have h2 := congrArg (fun s => s.data.length) hab
      simpa [guidsW] using h2)
    (by decide) (by decide)
    (by
      intro k p hp
      simp only [srcC4, List.mem_singleton] at hp
      subst hp
      exact guidsW_fresh_str k)
    (by
      intro k p hp
      simp only [tgtC4, List.mem_cons, List.not_mem_nil, or_false] at hp
      rcases hp with rfl | rfl
      · exact guidsW_fresh_str k
      · exact guidsW_fresh_null k)
    10 (by decide) ⟨"IfcCommunicationsAppliance", [("GlobalId", .str "")]⟩ rfl rfl

end IFCAntenna
